import Mathlib

/-!
Verification of the collector layer of a Proxmox VE Prometheus exporter
(`src/pve_exporter/collector.py`).

The upstream API hands each collector loosely typed key/value records
(JSON objects).  We embed such a record as an association list of
string keys and dynamic values, and each collector as a function from
the records it fetches to the metric families it emits, returning
`Except String` to model Python exceptions (`KeyError`, `ValueError`,
`IndexError`, `NameError`, `TypeError`).  Collectors that mutate the
upstream records in place additionally return the post-state of the
record list.
-/

/-- A dynamic (duck-typed) value as found in an upstream API response:
a string, an integer or a boolean. -/
inductive Val where
  | s (v : String)
  | i (v : Int)
  | b (v : Bool)
deriving DecidableEq, Repr

/-- Python `str()` applied to a dynamic value. -/
def pyStr : Val → String
  | .s v => v
  | .i v => toString v
  | .b v => if v then "True" else "False"

/-- True exactly on string values. -/
def isStrV : Val → Bool
  | .s _ => true
  | _ => false

/-- An upstream record: an insertion-ordered association list with (in
Python) unique string keys. -/
abbrev Record := List (String × Val)

/-- Key list of a record, in insertion order (Python `dict.keys()`). -/
def keysOf (r : Record) : List String := r.map Prod.fst

/-- First value stored under a key (Python dict lookup, total form). -/
def lookupV : Record → String → Option Val
  | [], _ => none
  | kv :: rest, k => if kv.1 = k then some kv.2 else lookupV rest k

/-- Python `d[k]`: raises `KeyError` when the key is absent. -/
def pyGet (r : Record) (k : String) : Except String Val :=
  match lookupV r k with
  | some v => .ok v
  | none => .error ("KeyError: " ++ k)

/-- Python `d.get(k, default)`. -/
def pyGetD (r : Record) (k : String) (d : Val) : Val :=
  (lookupV r k).getD d

/-- Remove the first binding of a key (the only one, for Python dicts). -/
def eraseKey : Record → String → Record
  | [], _ => []
  | kv :: rest, k => if kv.1 = k then rest else kv :: eraseKey rest k

/-- Python `del d[k]`: raises `KeyError` when the key is absent. -/
def pyDel (r : Record) (k : String) : Except String Record :=
  if (lookupV r k).isSome then .ok (eraseKey r k) else .error ("KeyError: " ++ k)

/-- Python `d[k] = v`: overwrite the existing binding in place, or
append a new binding at the end. -/
def pySet : Record → String → Val → Record
  | [], k, v => [(k, v)]
  | kv :: rest, k, v => if kv.1 = k then (k, v) :: rest else kv :: pySet rest k v

/-- Python `'cluster/\x7b:s\x7d'.format`-style use of a value as a string:
raises `TypeError` unless the value is a string. -/
def fmtS : Val → Except String String
  | .s v => .ok v
  | _ => .error "TypeError: argument is not a string"

/-- Python `l[i]` on a list: raises `IndexError` when out of range. -/
def pyIndex (l : List α) (i : Nat) : Except String α :=
  match l.get? i with
  | some a => .ok a
  | none => .error "IndexError: list index out of range"

/-- Error-propagating map, mirroring a Python `for` loop that may raise. -/
def mapE (f : α → Except String β) : List α → Except String (List β)
  | [] => .ok []
  | a :: as => do
    let b ← f a
    let bs ← mapE f as
    pure (b :: bs)

/-- Error-propagating fold, mirroring a stateful Python `for` loop. -/
def foldE (f : β → α → Except String β) : β → List α → Except String β
  | b, [] => .ok b
  | b, a :: as => do
    let b' ← f b a
    foldE f b' as

/-- True exactly on `Except.error`. -/
def isErr : Except String α → Bool
  | .error _ => true
  | .ok _ => false

/-- Value of an `Except.ok`, with a default for the error case. -/
def okD (e : Except String α) (d : α) : α :=
  match e with
  | .ok v => v
  | .error _ => d

/-- One named metric family: help text, ordered label names, and the
samples added to it, each a (label values, metric value) pair.  Mirrors
`prometheus_client.core.GaugeMetricFamily` as used by the source: label
values and metric values are passed through as dynamic values. -/
structure MetricFamily where
  name : String
  help : String
  labels : List String
  samples : List (List Val × Val)
deriving DecidableEq, Repr

/-- `GaugeMetricFamily.add_metric`: append one sample. -/
def MetricFamily.add_metric (fam : MetricFamily) (label_values : List Val) (value : Val) :
    MetricFamily :=
  { fam with samples := fam.samples ++ [(label_values, value)] }

/-- `StatusCollector.collect`, status-entry branch (source lines 38-46):
`node` entries yield `([entry[id]], entry[online])`, `cluster` entries
yield the synthesized id `cluster/<name>` with value `entry[quorate]`,
and any other type tag raises `ValueError`. -/
def StatusCollector.statusSample (entry : Record) : Except String (List Val × Val) := do
  let ty ← pyGet entry "type"
  if ty = Val.s "node" then do
    let id ← pyGet entry "id"
    let online ← pyGet entry "online"
    pure ([id], online)
  else if ty = Val.s "cluster" then do
    let name ← pyGet entry "name"
    let nameS ← fmtS name
    let quorate ← pyGet entry "quorate"
    pure ([Val.s ("cluster/" ++ nameS)], quorate)
  else
    .error "ValueError: got unexpected status entry type"

/-- `StatusCollector.collect`, VM/CT resource branch (source lines 48-50):
one sample per resource, value `resource[status] == 'running'`. -/
def StatusCollector.vmSample (resource : Record) : Except String (List Val × Val) := do
  let id ← pyGet resource "id"
  let status ← pyGet resource "status"
  pure ([id], Val.b (status = Val.s "running"))

/-- `StatusCollector.collect`: one `pve_up` family over the cluster
status list and the VM/CT-filtered resource list. -/
def StatusCollector.collect (status resources : List Record) :
    Except String (List MetricFamily) := do
  let s1 ← mapE StatusCollector.statusSample status
  let s2 ← mapE StatusCollector.vmSample resources
  pure [{ name := "pve_up",
          help := "Node/VM/CT-Status is online/running",
          labels := ["id"],
          samples := s1 ++ s2 }]

/-- `VersionCollector.LABEL_WHITELIST`. -/
def VersionCollector.LABEL_WHITELIST : List String := ["release", "repoid", "version"]

/-- `VersionCollector.collect`: project the version record onto the
whitelist; `labels, label_values = zip(*version.items())` raises
`ValueError` when the projection is empty. -/
def VersionCollector.collect (version : Record) : Except String (List MetricFamily) :=
  let v := version.filter (fun kv => VersionCollector.LABEL_WHITELIST.contains kv.1)
  if v.isEmpty then
    .error "ValueError: not enough values to unpack"
  else
    .ok [{ name := "pve_version_info",
           help := "Proxmox VE version info",
           labels := v.map Prod.fst,
           samples := [(v.map Prod.snd, Val.i 1)] }]

/-- The filter `[entry for entry in status if entry['type'] == t]`;
the key access inside the comprehension may raise `KeyError`. -/
def selectType (t : String) : List Record → Except String (List Record)
  | [] => .ok []
  | e :: rest => do
    let ty ← pyGet e "type"
    let tail ← selectType t rest
    pure (if ty = Val.s t then e :: tail else tail)

/-- Key removal performed on one node entry by `ClusterNodeCollector`
(source lines 100-102): `del node['type']; del node['online']`. -/
def stripNodeE (node : Record) : Except String Record := do
  let n ← pyDel node "type"
  pyDel n "online"

/-- In-place mutation performed on one cluster entry by
`ClusterInfoCollector` (source lines 134-140): delete `type`, overwrite
`id` with `cluster/<name>`, delete `name`. -/
def stripClusterE (cluster : Record) : Except String Record := do
  let c ← pyDel cluster "type"
  let name ← pyGet c "name"
  let nameS ← fmtS name
  pyDel (pySet c "id" (Val.s ("cluster/" ++ nameS))) "name"

/-- Post-state of the full upstream status list after a collector
mutated the entries of one type tag in place (the source mutates the
dict objects it filtered; entries of other types are untouched). -/
def mutateByType (t : String) (strip : Record → Except String Record)
    (status : List Record) : Except String (List Record) :=
  mapE (fun e => do
    let ty ← pyGet e "type"
    if ty = Val.s t then strip e else pure e) status

/-- `ClusterNodeCollector.collect` (source lines 95-115).  Returns the
emitted families together with the post-state of the upstream status
entries (the source deletes keys from the shared dict objects). -/
def ClusterNodeCollector.collect (status : List Record) :
    Except String (List MetricFamily × List Record) := do
  let nodes ← selectType "node" status
  if nodes.isEmpty then
    pure ([], status)
  else do
    let nodes ← mapE stripNodeE nodes
    let post ← mutateByType "node" stripNodeE status
    let labels := keysOf nodes.headI
    let samples ← mapE (fun node =>
      (mapE (fun key => (pyGet node key).map (fun v => Val.s (pyStr v))) labels).map
        (fun vs => (vs, Val.i 1))) nodes
    pure ([{ name := "pve_node_info",
             help := "Node info",
             labels := labels,
             samples := samples }], post)

/-- `ClusterInfoCollector.collect` (source lines 129-153), with the same
state-passing convention as the node collector.  The source runs two
mutation loops (delete `type`; then synthesize `id` and delete `name`). -/
def ClusterInfoCollector.collect (status : List Record) :
    Except String (List MetricFamily × List Record) := do
  let clusters ← selectType "cluster" status
  if clusters.isEmpty then
    pure ([], status)
  else do
    let clusters ← mapE (fun c => pyDel c "type") clusters
    let clusters ← mapE (fun c => do
      let name ← pyGet c "name"
      let nameS ← fmtS name
      pyDel (pySet c "id" (Val.s ("cluster/" ++ nameS))) "name") clusters
    let post ← mutateByType "cluster" stripClusterE status
    let labels := keysOf clusters.headI
    let samples ← mapE (fun cluster =>
      (mapE (fun key => (pyGet cluster key).map (fun v => Val.s (pyStr v))) labels).map
        (fun vs => (vs, Val.i 1))) clusters
    pure ([{ name := "pve_cluster_info",
             help := "Cluster info",
             labels := labels,
             samples := samples }], post)

/-- The eleven recognized usage keys of `ClusterResourcesCollector`,
with metric name and help text, in source insertion order (source
lines 165-210). -/
def ClusterResourcesCollector.usageKeys : List (String × String × String) :=
  [("maxdisk", "pve_disk_size_bytes", "Size of storage device"),
   ("disk", "pve_disk_usage_bytes", "Disk usage in bytes"),
   ("maxmem", "pve_memory_size_bytes", "Size of memory"),
   ("mem", "pve_memory_usage_bytes", "Memory usage in bytes"),
   ("netout", "pve_network_transmit_bytes", "Number of bytes transmitted over the network"),
   ("netin", "pve_network_receive_bytes", "Number of bytes received over the network"),
   ("diskwrite", "pve_disk_write_bytes", "Number of bytes written to storage"),
   ("diskread", "pve_disk_read_bytes", "Number of bytes read from storage"),
   ("cpu", "pve_cpu_usage_ratio", "CPU usage (value between 0.0 and pve_cpu_usage_limit)"),
   ("maxcpu", "pve_cpu_usage_limit", "Maximum allowed CPU usage"),
   ("uptime", "pve_uptime_seconds", "Number of seconds since the last boot")]

/-- The key set of the `metrics` dict (the test `key in metrics`). -/
def ClusterResourcesCollector.usageKeyNames : List String :=
  ClusterResourcesCollector.usageKeys.map (fun t => t.1)

/-- Which info gauge a resource type is routed to. -/
inductive InfoTarget where
  | guest
  | storage
deriving DecidableEq, Repr

/-- The `info_lookup` dict (source lines 223-236): label list and target
gauge per recognized resource type tag. -/
def info_lookup (restype : Val) : Option (List String × InfoTarget) :=
  if restype = Val.s "lxc" ∨ restype = Val.s "qemu" then
    some (["id", "node", "name", "type"], .guest)
  else if restype = Val.s "storage" then
    some (["id", "node", "storage"], .storage)
  else
    none

/-- The mutable family state of one `ClusterResourcesCollector.collect`
invocation: the `metrics` dict (fixed usage keys) plus the two info
gauges. -/
structure CRFamilies where
  usage : List (String × MetricFamily)
  guest : MetricFamily
  storage : MetricFamily
deriving DecidableEq, Repr

/-- The freshly constructed families at the start of one invocation. -/
def ClusterResourcesCollector.initFamilies : CRFamilies :=
  { usage := ClusterResourcesCollector.usageKeys.map
      (fun t => (t.1, { name := t.2.1, help := t.2.2, labels := ["id"], samples := [] })),
    guest := { name := "pve_guest_info", help := "VM/CT info",
               labels := ["id", "node", "name", "type"], samples := [] },
    storage := { name := "pve_storage_info", help := "Storage info",
                 labels := ["id", "node", "storage"], samples := [] } }

/-- `info_lookup[restype]['gauge'].add_metric(label_values, 1)`. -/
def CRFamilies.addInfo (st : CRFamilies) (t : InfoTarget) (label_values : List Val) :
    CRFamilies :=
  match t with
  | .guest => { st with guest := st.guest.add_metric label_values (Val.i 1) }
  | .storage => { st with storage := st.storage.add_metric label_values (Val.i 1) }

/-- `metrics[key].add_metric(label_values, metric_value)`. -/
def CRFamilies.addUsage (st : CRFamilies) (k : String) (label_values : List Val) (v : Val) :
    CRFamilies :=
  { st with usage := st.usage.map (fun p => if p.1 = k then (p.1, p.2.add_metric label_values v) else p) }

/-- Processing of one resource by `ClusterResourcesCollector.collect`
(source lines 238-248): read the type tag, add the info sample when the
type is recognized (missing label keys default to the empty string),
then scan the resource items for recognized usage keys. -/
def ClusterResourcesCollector.step (st : CRFamilies) (resource : Record) :
    Except String CRFamilies := do
  let restype ← pyGet resource "type"
  let st :=
    match info_lookup restype with
    | some (ls, target) => st.addInfo target (ls.map (fun key => pyGetD resource key (Val.s "")))
    | none => st
  let id ← pyGet resource "id"
  pure (resource.foldl (fun st kv =>
    if ClusterResourcesCollector.usageKeyNames.contains kv.1 then
      st.addUsage kv.1 [id] kv.2
    else st) st)

/-- `ClusterResourcesCollector.collect` (source lines 164-250): fold all
resources through the family state, then chain the usage families and
the two info families, all always emitted. -/
def ClusterResourcesCollector.collect (resources : List Record) :
    Except String (List MetricFamily) := do
  let st ← foldE ClusterResourcesCollector.step ClusterResourcesCollector.initFamilies resources
  pure (st.usage.map Prod.snd ++ [st.guest, st.storage])

/-- One detected hardware sensor chip: `str(chip)`, `chip.adapter_name`,
and the (label, value) pairs of its features. -/
structure SensorChip where
  chip : String
  adapter_name : String
  features : List (String × Val)
deriving DecidableEq, Repr

/-- `LMSensorsCollector.collect` (source lines 261-277).  `chips` holds
the chip/feature readings successfully enumerated before a possible
failure; `_enumerationFails` marks an exception raised during
enumeration.  The bare `except` in the source catches any such
exception after logging, so the family is yielded either way with the
samples added so far, and no error escapes: the result does not depend
on the flag. -/
def LMSensorsCollector.collect (chips : List SensorChip) (_enumerationFails : Bool) :
    Except String (List MetricFamily) :=
  let samples := chips.flatMap (fun chip =>
    chip.features.map (fun f => ([Val.s chip.chip, Val.s chip.adapter_name, Val.s f.1], f.2)))
  .ok [{ name := "pve_host_sensors",
         help := "Sensors in each chip",
         labels := ["chip", "chip_type", "sensor"],
         samples := samples }]

/-- Split a character list at every occurrence of a separator
(Python `bytes.split` semantics: the empty input gives one empty
chunk). -/
def splitOnChar (c : Char) : List Char → List (List Char)
  | [] => [[]]
  | x :: xs =>
    let r := splitOnChar c xs
    if x = c then [] :: r
    else
      match r with
      | [] => [[x]]
      | y :: ys => (x :: y) :: ys

/-- Python `bytes.split(b"\n")` over captured stdout. -/
def pySplitLines (stdout : String) : List String :=
  (splitOnChar (Char.ofNat 10) stdout.toList).map String.mk

/-- Python `bytes.split(sep)` for a one-character separator. -/
def pySplit (s : String) (c : Char) : List String :=
  (splitOnChar c s.toList).map String.mk

/-- Python `startswith`. -/
def pyStartsWith (s pre : String) : Bool := pre.toList.isPrefixOf s.toList

/-- Python `lstrip()`. -/
def pyLStrip (s : String) : String :=
  String.mk (s.toList.dropWhile (fun c => c.isWhitespace))

/-- Python `strip()`. -/
def pyStrip (s : String) : String :=
  String.mk (((s.toList.dropWhile (fun c => c.isWhitespace)).reverse.dropWhile
    (fun c => c.isWhitespace)).reverse)

/-- Simplified recognizer for the strings accepted by Python `float()`
(surrounding whitespace, optional sign, decimal digits with at most
one dot; the full grammar also has exponents and named constants,
which `lscpu`/`hddtemp` output never uses). -/
def isFloatLit (s : String) : Bool :=
  let t := ((s.toList.dropWhile (fun c => c.isWhitespace)).reverse.dropWhile
    (fun c => c.isWhitespace)).reverse
  let t := if t.head? = some (Char.ofNat 45) || t.head? = some (Char.ofNat 43) then
    t.tail else t
  !t.isEmpty && t.all (fun c => c.isDigit || c = Char.ofNat 46) &&
    (t.filter (fun c => c = Char.ofNat 46)).length ≤ 1 && t.any Char.isDigit

/-- One line of the `lscpu` parsing loop of `CPUFreqCollector.collect`
(source lines 288-294), threading the three locals `cur_freq`,
`max_freq`, `min_freq` (unset = `none`).  The float value of `cur_freq`
is represented by its source text; `float()` on a malformed field
raises `ValueError`. -/
def CPUFreqCollector.step (st : Option String × Option String × Option String) (l : String) :
    Except String (Option String × Option String × Option String) :=
  if pyStartsWith l "CPU MHz" then do
    let field ← pyIndex (pySplit l (Char.ofNat 58)) 1
    let field := pyLStrip field
    if isFloatLit field then pure (some field, st.2.1, st.2.2)
    else .error "ValueError: could not convert string to float"
  else if pyStartsWith l "CPU max MHz" then do
    let field ← pyIndex (pySplit l (Char.ofNat 58)) 1
    pure (st.1, some (pyLStrip field), st.2.2)
  else if pyStartsWith l "CPU min MHz" then do
    let field ← pyIndex (pySplit l (Char.ofNat 58)) 1
    pure (st.1, st.2.1, some (pyLStrip field))
  else
    pure st

/-- `CPUFreqCollector.collect` (source lines 280-297): parse the
captured `lscpu` stdout; the final `add_metric([max_freq, min_freq],
cur_freq)` raises `NameError` when any of the three locals was never
assigned.  There is no exception handler in this collector. -/
def CPUFreqCollector.collect (stdout : String) : Except String (List MetricFamily) := do
  let st ← foldE CPUFreqCollector.step (none, none, none) (pySplitLines stdout)
  match st with
  | (some cur_freq, some max_freq, some min_freq) =>
    pure [{ name := "pve_host_cpufreq",
            help := "CPU freq info",
            labels := ["max_freq", "min_freq"],
            samples := [([Val.s max_freq, Val.s min_freq], Val.s cur_freq)] }]
  | _ => .error "NameError: local variable referenced before assignment"

/-- Leftmost maximal digit run of a string: the match of
`re.search(b"\d+", s)`, or `none` when the search fails. -/
def firstDigitRun (s : String) : Option String :=
  let l := (s.toList.dropWhile (fun c => !c.isDigit)).takeWhile Char.isDigit
  if l.isEmpty then none else some (String.mk l)

/-- One nonempty line of the `hddtemp` parsing loop of
`HDDTempCollector.collect` (source lines 322-328): split on colons,
index the first three fields (`IndexError` when missing), and extract
the digits of the temperature field (`re.search` returning `None` makes
the `.group()` call raise `AttributeError`). -/
def HDDTempCollector.parseLine (l : String) : Except String (List Val × Val) := do
  let p := pySplit l (Char.ofNat 58)
  let dev ← pyIndex p 0
  let mode ← pyIndex p 1
  let temp ← pyIndex p 2
  match firstDigitRun (pyStrip temp) with
  | some digits => pure ([Val.s (pyStrip dev), Val.s (pyStrip mode)], Val.s digits)
  | none => .error "AttributeError: NoneType has no attribute group"

/-- `HDDTempCollector.collect` (source lines 300-330), taking the
captured `hddtemp` stdout as input (device probing and subprocess
execution are external collaborators).  No exception handler. -/
def HDDTempCollector.collect (stdout : String) : Except String (List MetricFamily) := do
  let samples ← mapE HDDTempCollector.parseLine
    ((pySplitLines stdout).filter (fun l => l.length > 0))
  pure [{ name := "pve_host_hdd_temp",
          help := "Host HDD temp information",
          labels := ["device", "mode"],
          samples := samples }]

/-- `collect_pve` (source lines 332-346): run every registered collector
once, in registration order, and concatenate the emitted families.
Each collector fetches its upstream data afresh (so the node and info
collectors each receive their own copy of the status list, and their
in-place mutation of that copy is discarded).  Any exception raised by
a collector aborts the whole scrape. -/
def collect_pve (status vmResources resources : List Record) (version : Record)
    (chips : List SensorChip) (sensorsFail : Bool) (lscpuOut hddtempOut : String) :
    Except String (List MetricFamily) := do
  let f1 ← StatusCollector.collect status vmResources
  let f2 ← ClusterResourcesCollector.collect resources
  let (f3, _) ← ClusterNodeCollector.collect status
  let (f4, _) ← ClusterInfoCollector.collect status
  let f5 ← VersionCollector.collect version
  let f6 ← LMSensorsCollector.collect chips sensorsFail
  let f7 ← CPUFreqCollector.collect lscpuOut
  let f8 ← HDDTempCollector.collect hddtempOut
  pure (f1 ++ f2 ++ f3 ++ f4 ++ f5 ++ f6 ++ f7 ++ f8)

/-! ### Infrastructure lemmas -/

theorem exc_bind_ok (a : α) (f : α → Except String β) : (Except.ok a >>= f) = f a := rfl

theorem exc_bind_error (e : String) (f : α → Except String β) :
    ((Except.error e : Except String α) >>= f) = Except.error e := rfl

theorem exc_pure (a : α) : (pure a : Except String α) = Except.ok a := rfl

theorem isErr_error (e : String) : isErr (Except.error e : Except String α) = true := rfl

theorem mapE_ok_of_forall (f : α → Except String β) (g : α → β) :
    ∀ l : List α, (∀ a ∈ l, f a = .ok (g a)) → mapE f l = .ok (l.map g) := by
  intro l
  induction l with
  | nil => intro _; rfl
  | cons a as ih =>
    intro h
    have ha := h a (List.mem_cons_self a as)
    have ht := ih (fun x hx => h x (List.mem_cons_of_mem a hx))
    simp [mapE, ha, ht, exc_bind_ok, exc_pure]

theorem mapE_ok_forall₂ (f : α → Except String β) :
    ∀ (l : List α) (ys : List β), mapE f l = .ok ys →
      List.Forall₂ (fun a y => f a = .ok y) l ys := by
  intro l
  induction l with
  | nil =>
    intro ys h
    simp only [mapE] at h
    cases h
    exact List.Forall₂.nil
  | cons a as ih =>
    intro ys h
    simp only [mapE] at h
    cases ha : f a with
    | error e => rw [ha, exc_bind_error] at h; cases h
    | ok b =>
      rw [ha, exc_bind_ok] at h
      cases ht : mapE f as with
      | error e => rw [ht, exc_bind_error] at h; cases h
      | ok bs =>
        rw [ht, exc_bind_ok, exc_pure] at h
        cases h
        exact List.Forall₂.cons ha (ih bs ht)

theorem mapE_ok_length (f : α → Except String β) (l : List α) (ys : List β)
    (h : mapE f l = .ok ys) : ys.length = l.length :=
  ((mapE_ok_forall₂ f l ys h).length_eq).symm

theorem mapE_err_of_mem (f : α → Except String β) (a : α) :
    ∀ l : List α, a ∈ l → (∀ b, f a ≠ .ok b) → isErr (mapE f l) = true := by
  intro l
  induction l with
  | nil => intro h; cases h
  | cons hd tl ih =>
    intro hmem hbad
    cases hhd : f hd with
    | error e => simp [mapE, hhd, exc_bind_error, isErr]
    | ok b =>
      rcases List.mem_cons.mp hmem with heq | htl
      · subst heq; exact absurd hhd (hbad b)
      · cases htl' : mapE f tl with
        | error e => simp [mapE, hhd, exc_bind_ok, htl', exc_bind_error, isErr]
        | ok bs =>
          have := ih htl hbad
          rw [htl'] at this
          simp [isErr] at this

theorem lookupV_isSome_iff_mem (r : Record) (k : String) :
    (lookupV r k).isSome = true ↔ k ∈ keysOf r := by
  induction r with
  | nil => simp [lookupV, keysOf]
  | cons kv rest ih =>
    by_cases h : kv.1 = k
    · simp [lookupV, keysOf, h]
    · simp [lookupV, keysOf, h, ih]
      intro he
      exact absurd he.symm h

theorem lookupV_eq_none_iff (r : Record) (k : String) :
    lookupV r k = none ↔ k ∉ keysOf r := by
  rw [← lookupV_isSome_iff_mem]
  cases lookupV r k <;> simp

theorem keysOf_eraseKey (r : Record) (k : String) :
    keysOf (eraseKey r k) = (keysOf r).eraseP (fun x => x == k) := by
  induction r with
  | nil => rfl
  | cons kv rest ih =>
    by_cases h : kv.1 = k
    · simp [eraseKey, keysOf, List.eraseP_cons, h]
    · simp [eraseKey, keysOf, List.eraseP_cons, h, ih]
      exact ih

theorem lookupV_eraseKey_of_ne (r : Record) (k k' : String) (h : k' ≠ k) :
    lookupV (eraseKey r k) k' = lookupV r k' := by
  induction r with
  | nil => rfl
  | cons kv rest ih =>
    by_cases hk : kv.1 = k
    · have hne : kv.1 ≠ k' := by rw [hk]; exact Ne.symm h
      simp only [eraseKey, if_pos hk, lookupV, if_neg hne]
    · simp only [eraseKey, if_neg hk, lookupV]
      by_cases hk' : kv.1 = k'
      · simp only [if_pos hk']
      · simp only [if_neg hk', ih]

theorem lookupV_eraseKey_self (r : Record) (k : String) (h : (keysOf r).Nodup) :
    lookupV (eraseKey r k) k = none := by
  induction r with
  | nil => rfl
  | cons kv rest ih =>
    simp only [keysOf, List.map_cons, List.nodup_cons] at h
    by_cases hk : kv.1 = k
    · simp only [eraseKey, hk, if_pos rfl]
      rw [lookupV_eq_none_iff]
      rw [hk] at h
      exact h.1
    · simp [eraseKey, hk, lookupV, ih h.2]

theorem lookupV_pySet_self (r : Record) (k : String) (v : Val) :
    lookupV (pySet r k v) k = some v := by
  induction r with
  | nil => simp [pySet, lookupV]
  | cons kv rest ih =>
    by_cases h : kv.1 = k
    · simp [pySet, if_pos h, lookupV]
    · simp only [pySet, if_neg h, lookupV, if_neg h, ih]

theorem lookupV_pySet_ne (r : Record) (k k' : String) (v : Val) (h : k' ≠ k) :
    lookupV (pySet r k v) k' = lookupV r k' := by
  induction r with
  | nil => simp only [pySet, lookupV, if_neg (Ne.symm h)]
  | cons kv rest ih =>
    by_cases hk : kv.1 = k
    · have hne : kv.1 ≠ k' := by rw [hk]; exact Ne.symm h
      simp only [pySet, if_pos hk, lookupV, if_neg (Ne.symm h), if_neg hne]
    · simp only [pySet, if_neg hk, lookupV]
      by_cases hk' : kv.1 = k'
      · simp only [if_pos hk']
      · simp only [if_neg hk', ih]

theorem keysOf_pySet_of_mem (r : Record) (k : String) (v : Val) (h : k ∈ keysOf r) :
    keysOf (pySet r k v) = keysOf r := by
  induction r with
  | nil => cases h
  | cons kv rest ih =>
    by_cases hk : kv.1 = k
    · simp [pySet, if_pos hk, keysOf, hk]
    · simp only [keysOf, List.map_cons, List.mem_cons] at h
      rcases h with he | hm
      · exact absurd he.symm hk
      · simp only [pySet, if_neg hk, keysOf, List.map_cons] at ih ⊢
        rw [ih hm]

theorem keysOf_pySet_of_not_mem (r : Record) (k : String) (v : Val) (h : k ∉ keysOf r) :
    keysOf (pySet r k v) = keysOf r ++ [k] := by
  induction r with
  | nil => rfl
  | cons kv rest ih =>
    simp only [keysOf, List.map_cons, List.mem_cons] at h
    push_neg at h
    have hk : kv.1 ≠ k := fun he => h.1 he.symm
    simp only [pySet, if_neg hk, keysOf, List.map_cons, List.cons_append] at ih ⊢
    rw [ih h.2]

theorem pyGet_ok_of_lookup (r : Record) (k : String) (v : Val) (h : lookupV r k = some v) :
    pyGet r k = .ok v := by
  simp [pyGet, h]

theorem pyDel_ok_of_mem (r : Record) (k : String) (h : k ∈ keysOf r) :
    pyDel r k = .ok (eraseKey r k) := by
  have := (lookupV_isSome_iff_mem r k).mpr h
  simp [pyDel, this]

theorem selectType_ok (t : String) :
    ∀ status : List Record, (∀ e ∈ status, (lookupV e "type").isSome) →
      selectType t status =
        .ok (status.filter (fun e => lookupV e "type" == some (Val.s t))) := by
  intro status
  induction status with
  | nil => intro _; rfl
  | cons e rest ih =>
    intro h
    obtain ⟨v, hv⟩ := Option.isSome_iff_exists.mp (h e (List.mem_cons_self e rest))
    have ht := ih (fun x hx => h x (List.mem_cons_of_mem e hx))
    by_cases hvt : v = Val.s t
    · simp [selectType, pyGet_ok_of_lookup e "type" v hv, exc_bind_ok, ht, exc_pure,
            List.filter_cons, hv, hvt]
    · simp [selectType, pyGet_ok_of_lookup e "type" v hv, exc_bind_ok, ht, exc_pure,
            List.filter_cons, hv, hvt]

/-! ### Status collector: expected samples and claim C1 -/

instance [DecidableEq e] [DecidableEq a] : DecidableEq (Except e a) := fun x y =>
  match x, y with
  | .ok v, .ok w =>
    if h : v = w then isTrue (by rw [h]) else isFalse (by intro hc; cases hc; exact h rfl)
  | .error v, .error w =>
    if h : v = w then isTrue (by rw [h]) else isFalse (by intro hc; cases hc; exact h rfl)
  | .ok _, .error _ => isFalse (by intro hc; cases hc)
  | .error _, .ok _ => isFalse (by intro hc; cases hc)

/-- True when an optional value is present and a string. -/
def isStrOpt : Option Val → Bool
  | some (Val.s _) => true
  | _ => false

/-- A cluster-status entry as documented by the upstream data model: a
`node` entry carrying `id` and `online`, or a `cluster` entry carrying
a string `name` and `quorate`. -/
def WfStatusEntry (e : Record) : Prop :=
  (lookupV e "type" = some (Val.s "node") ∧
    (lookupV e "id").isSome ∧ (lookupV e "online").isSome) ∨
  (lookupV e "type" = some (Val.s "cluster") ∧
    isStrOpt (lookupV e "name") = true ∧ (lookupV e "quorate").isSome)

instance (e : Record) : Decidable (WfStatusEntry e) := by
  unfold WfStatusEntry; infer_instance

/-- The sample claimed for one well-formed status entry: label the
entry id (synthesized as `cluster/<name>` for cluster entries), value
the `online` flag for nodes and the `quorate` flag for clusters. -/
def expectedStatusSample (e : Record) : List Val × Val :=
  if lookupV e "type" = some (Val.s "node") then
    ([(lookupV e "id").getD (Val.s "")], (lookupV e "online").getD (Val.s ""))
  else
    ([Val.s ("cluster/" ++ pyStr ((lookupV e "name").getD (Val.s "")))],
     (lookupV e "quorate").getD (Val.s ""))

/-- The sample claimed for one VM/CT resource: label its id, value 1
exactly when its status equals `running`. -/
def expectedVmSample (r : Record) : List Val × Val :=
  ([(lookupV r "id").getD (Val.s "")],
   Val.b ((lookupV r "status").getD (Val.s "") = Val.s "running"))

theorem statusSample_ok_of_wf (e : Record) (h : WfStatusEntry e) :
    StatusCollector.statusSample e = .ok (expectedStatusSample e) := by
  rcases h with ⟨hty, hid, honl⟩ | ⟨hty, hname, hq⟩
  · obtain ⟨id, hid⟩ := Option.isSome_iff_exists.mp hid
    obtain ⟨onl, honl⟩ := Option.isSome_iff_exists.mp honl
    simp [StatusCollector.statusSample, expectedStatusSample,
          pyGet_ok_of_lookup _ _ _ hty, pyGet_ok_of_lookup _ _ _ hid,
          pyGet_ok_of_lookup _ _ _ honl, exc_bind_ok, exc_pure, hty, hid, honl]
  · obtain ⟨q, hq⟩ := Option.isSome_iff_exists.mp hq
    cases hn : lookupV e "name" with
    | none => rw [hn] at hname; simp [isStrOpt] at hname
    | some nv =>
      cases nv with
      | s str =>
        simp [StatusCollector.statusSample, expectedStatusSample,
              pyGet_ok_of_lookup _ _ _ hty, pyGet_ok_of_lookup _ _ _ hn,
              pyGet_ok_of_lookup _ _ _ hq, fmtS, exc_bind_ok, exc_pure,
              hty, hn, hq, pyStr]
      | i n => rw [hn] at hname; simp [isStrOpt] at hname
      | b bv => rw [hn] at hname; simp [isStrOpt] at hname

theorem statusSample_never_ok_of_badtype (e : Record) (t : Val)
    (ht : lookupV e "type" = some t) (h1 : t ≠ Val.s "node") (h2 : t ≠ Val.s "cluster") :
    ∀ b, StatusCollector.statusSample e ≠ .ok b := by
  intro b
  simp [StatusCollector.statusSample, pyGet_ok_of_lookup _ _ _ ht, exc_bind_ok,
        if_neg h1, if_neg h2]

theorem vmSample_ok (r : Record) (h1 : (lookupV r "id").isSome)
    (h2 : (lookupV r "status").isSome) :
    StatusCollector.vmSample r = .ok (expectedVmSample r) := by
  obtain ⟨id, hid⟩ := Option.isSome_iff_exists.mp h1
  obtain ⟨st, hst⟩ := Option.isSome_iff_exists.mp h2
  simp [StatusCollector.vmSample, expectedVmSample, pyGet_ok_of_lookup _ _ _ hid,
        pyGet_ok_of_lookup _ _ _ hst, exc_bind_ok, exc_pure, hid, hst]

/-- Claim C1: for every cluster-status input whose entries are
well-formed `node`/`cluster` entries, `StatusCollector.collect`
produces exactly one family `pve_up` labeled by `id`, containing one
sample per status entry (value the `online` flag for node entries, the
`quorate` flag for cluster entries, with id synthesized as
`cluster/<name>` for cluster entries) plus one sample per VM/CT
resource with value 1 exactly when the status equals `running`; and
any input containing an entry with any other type tag makes `collect`
raise instead of silently dropping the entry. -/
theorem claim_C1 (status resources : List Record) :
    ((∀ e ∈ status, WfStatusEntry e) →
     (∀ r ∈ resources, (lookupV r "id").isSome ∧ (lookupV r "status").isSome) →
      StatusCollector.collect status resources =
        .ok [{ name := "pve_up", help := "Node/VM/CT-Status is online/running",
               labels := ["id"],
               samples := status.map expectedStatusSample ++
                          resources.map expectedVmSample }]) ∧
    (∀ e ∈ status, ∀ t, lookupV e "type" = some t →
      t ≠ Val.s "node" → t ≠ Val.s "cluster" →
      isErr (StatusCollector.collect status resources) = true) := by
  constructor
  · intro hs hr
    have h1 := mapE_ok_of_forall StatusCollector.statusSample expectedStatusSample status
      (fun e he => statusSample_ok_of_wf e (hs e he))
    have h2 := mapE_ok_of_forall StatusCollector.vmSample expectedVmSample resources
      (fun r h => vmSample_ok r (hr r h).1 (hr r h).2)
    simp [StatusCollector.collect, h1, h2, exc_bind_ok, exc_pure]
  · intro e he t ht h1 h2
    have hbad := statusSample_never_ok_of_badtype e t ht h1 h2
    have herr := mapE_err_of_mem StatusCollector.statusSample e status he hbad
    cases hm : mapE StatusCollector.statusSample status with
    | error msg => simp [StatusCollector.collect, hm, exc_bind_error, isErr]
    | ok l => rw [hm] at herr; simp [isErr] at herr

/-- Witness for claim C1 at a concrete input. -/
theorem claim_C1_witness :
    StatusCollector.collect
      [[("type", Val.s "node"), ("id", Val.s "node/p1"), ("online", Val.i 1)],
       [("type", Val.s "cluster"), ("name", Val.s "pvec"), ("quorate", Val.i 1)]]
      [[("id", Val.s "qemu/102"), ("status", Val.s "running")],
       [("id", Val.s "lxc/101"), ("status", Val.s "stopped")]] =
      .ok [{ name := "pve_up", help := "Node/VM/CT-Status is online/running",
             labels := ["id"],
             samples := [([Val.s "node/p1"], Val.i 1),
                         ([Val.s "cluster/pvec"], Val.i 1),
                         ([Val.s "qemu/102"], Val.b true),
                         ([Val.s "lxc/101"], Val.b false)] }] := by
  have h := (claim_C1
    [[("type", Val.s "node"), ("id", Val.s "node/p1"), ("online", Val.i 1)],
     [("type", Val.s "cluster"), ("name", Val.s "pvec"), ("quorate", Val.i 1)]]
    [[("id", Val.s "qemu/102"), ("status", Val.s "running")],
     [("id", Val.s "lxc/101"), ("status", Val.s "stopped")]]).1
    (by decide) (by decide)
  exact h.trans (by decide)

/-! ### Claims C5 and C8 -/

/-- Claim C5: when the type-filtered subset of the status list is
empty, the node and cluster info collectors yield no metric family at
all (and leave the upstream entries untouched): the output sequence is
empty, not a family with zero samples. -/
theorem claim_C5 (status : List Record)
    (htype : ∀ e ∈ status, (lookupV e "type").isSome) :
    ((∀ e ∈ status, lookupV e "type" ≠ some (Val.s "node")) →
      ClusterNodeCollector.collect status = .ok ([], status)) ∧
    ((∀ e ∈ status, lookupV e "type" ≠ some (Val.s "cluster")) →
      ClusterInfoCollector.collect status = .ok ([], status)) := by
  constructor
  · intro hnone
    have hsel := selectType_ok "node" status htype
    have hfilter : status.filter (fun e => lookupV e "type" == some (Val.s "node")) = [] := by
      rw [List.filter_eq_nil_iff]
      intro e he
      simp [hnone e he]
    rw [hfilter] at hsel
    simp [ClusterNodeCollector.collect, hsel, exc_bind_ok, List.isEmpty, exc_pure]
  · intro hnone
    have hsel := selectType_ok "cluster" status htype
    have hfilter : status.filter (fun e => lookupV e "type" == some (Val.s "cluster")) = [] := by
      rw [List.filter_eq_nil_iff]
      intro e he
      simp [hnone e he]
    rw [hfilter] at hsel
    simp [ClusterInfoCollector.collect, hsel, exc_bind_ok, List.isEmpty, exc_pure]

/-- Witness for claim C5 at a concrete input. -/
theorem claim_C5_witness :
    ClusterNodeCollector.collect [[("type", Val.s "cluster"), ("name", Val.s "c")]] =
      .ok ([], [[("type", Val.s "cluster"), ("name", Val.s "c")]]) ∧
    ClusterInfoCollector.collect [[("type", Val.s "node"), ("id", Val.s "n")]] =
      .ok ([], [[("type", Val.s "node"), ("id", Val.s "n")]]) :=
  ⟨(claim_C5 [[("type", Val.s "cluster"), ("name", Val.s "c")]] (by decide)).1 (by decide),
   (claim_C5 [[("type", Val.s "node"), ("id", Val.s "n")]] (by decide)).2 (by decide)⟩

/-- Claim C8: each collector is a pure function of the upstream
responses it fetched: in this embedding every collector constructs its
metric families afresh from its arguments and keeps no state between
invocations, so two invocations against identical upstream responses
return identical family output (no accumulation, no ordering drift).
The node/info collectors mutate the fetched record objects, but each
invocation re-fetches a fresh response, which is exactly what the
equalities below quantify over. -/
theorem claim_C8 (status status' vmRes vmRes' resources resources' : List Record)
    (h1 : status = status') (h2 : vmRes = vmRes') (h3 : resources = resources') :
    StatusCollector.collect status vmRes = StatusCollector.collect status' vmRes' ∧
    ClusterNodeCollector.collect status = ClusterNodeCollector.collect status' ∧
    ClusterInfoCollector.collect status = ClusterInfoCollector.collect status' ∧
    ClusterResourcesCollector.collect resources =
      ClusterResourcesCollector.collect resources' := by
  subst h1 h2 h3
  exact ⟨rfl, rfl, rfl, rfl⟩

/-- Witness for claim C8 at a concrete input. -/
theorem claim_C8_witness :
    StatusCollector.collect [[("type", Val.s "node"), ("id", Val.s "n"), ("online", Val.i 1)]] [] =
      StatusCollector.collect [[("type", Val.s "node"), ("id", Val.s "n"), ("online", Val.i 1)]] [] :=
  (claim_C8 [[("type", Val.s "node"), ("id", Val.s "n"), ("online", Val.i 1)]]
    [[("type", Val.s "node"), ("id", Val.s "n"), ("online", Val.i 1)]]
    [] [] [] [] rfl rfl rfl).1

/-! ### Claim C4: version collector -/

theorem lookupV_of_mem_nodup (r : Record) (kv : String × Val)
    (hnd : (keysOf r).Nodup) (hm : kv ∈ r) : lookupV r kv.1 = some kv.2 := by
  induction r with
  | nil => cases hm
  | cons hd rest ih =>
    simp only [keysOf, List.map_cons, List.nodup_cons] at hnd
    rcases List.mem_cons.mp hm with he | hr
    · subst he; simp [lookupV]
    · have hne : hd.1 ≠ kv.1 := by
        intro he
        exact hnd.1 (he ▸ List.mem_map_of_mem Prod.fst hr)
      simp only [lookupV, if_neg hne]
      exact ih hnd.2 hr

/-- Claim C4: `VersionCollector.collect` emits exactly one family with
exactly one sample of value 1 whose label set is the intersection of
the whitelist `release, repoid, version` with the keys present in the
version record (label values being the record values of those keys);
when that intersection is empty the collector raises instead. -/
theorem claim_C4 (version : Record) (hnd : (keysOf version).Nodup) :
    ((∃ k ∈ VersionCollector.LABEL_WHITELIST, (lookupV version k).isSome) →
      ∃ labels : List String,
        VersionCollector.collect version =
          .ok [{ name := "pve_version_info", help := "Proxmox VE version info",
                 labels := labels,
                 samples := [(labels.map (fun k => (lookupV version k).getD (Val.s "")),
                              Val.i 1)] }] ∧
        labels.toFinset =
          VersionCollector.LABEL_WHITELIST.toFinset ∩ (keysOf version).toFinset) ∧
    ((∀ k ∈ VersionCollector.LABEL_WHITELIST, lookupV version k = none) →
      isErr (VersionCollector.collect version) = true) := by
  constructor
  · intro ⟨k, hkw, hks⟩
    refine ⟨(version.filter (fun kv => VersionCollector.LABEL_WHITELIST.contains kv.1)).map
      Prod.fst, ?_, ?_⟩
    · have hne : version.filter (fun kv => VersionCollector.LABEL_WHITELIST.contains kv.1) ≠ [] := by
        intro hnil
        obtain ⟨kv, hmem, hfst⟩ := List.mem_map.mp
          ((lookupV_isSome_iff_mem version k).mp hks)
        have : kv ∈ version.filter (fun kv => VersionCollector.LABEL_WHITELIST.contains kv.1) := by
          rw [List.mem_filter]
          exact ⟨hmem, by simp [List.contains, List.elem_iff, hfst, hkw]⟩
        rw [hnil] at this
        cases this
      have hvals : (version.filter
            (fun kv => VersionCollector.LABEL_WHITELIST.contains kv.1)).map Prod.snd =
          ((version.filter (fun kv => VersionCollector.LABEL_WHITELIST.contains kv.1)).map
            Prod.fst).map (fun k => (lookupV version k).getD (Val.s "")) := by
        rw [List.map_map]
        apply List.map_congr_left
        intro kv hkv
        have hv := lookupV_of_mem_nodup version kv hnd (List.mem_filter.mp hkv).1
        simp [Function.comp, hv]
      simp only [VersionCollector.collect]
      rw [if_neg (by simpa [List.isEmpty_iff] using hne)]
      rw [hvals]
    · ext a
      simp only [List.mem_toFinset, Finset.mem_inter, List.mem_map, List.mem_filter, keysOf]
      constructor
      · rintro ⟨kv, ⟨hmem, hcon⟩, hfst⟩
        have : kv.1 ∈ VersionCollector.LABEL_WHITELIST := by
          simpa [List.contains, List.elem_iff] using hcon
        exact ⟨hfst ▸ this, ⟨kv, hmem, hfst⟩⟩
      · rintro ⟨hw, kv, hmem, hfst⟩
        exact ⟨kv, ⟨hmem, by simp [List.contains, List.elem_iff, hfst, hw]⟩, hfst⟩
  · intro hall
    have hnil : version.filter (fun kv => VersionCollector.LABEL_WHITELIST.contains kv.1) = [] := by
      rw [List.filter_eq_nil_iff]
      intro kv hkv hcon
      have hw : kv.1 ∈ VersionCollector.LABEL_WHITELIST := by
        simpa [List.contains, List.elem_iff] using hcon
      have := hall kv.1 hw
      rw [lookupV_of_mem_nodup version kv hnd hkv] at this
      cases this
    simp only [VersionCollector.collect]
    rw [hnil]
    simp [isErr]

/-- Witness for claim C4 at a concrete input. -/
theorem claim_C4_witness :
    isErr (VersionCollector.collect [("extra", Val.s "x")]) = true :=
  (claim_C4 [("extra", Val.s "x")] (by decide)).2 (by decide)

/-! ### Cluster resources collector: characterization for claims C2 and C3 -/

/-- Append a batch of samples to a family. -/
def MetricFamily.addSamples (fam : MetricFamily) (ss : List (List Val × Val)) : MetricFamily :=
  { fam with samples := fam.samples ++ ss }

theorem addSamples_nil (fam : MetricFamily) : fam.addSamples [] = fam := by
  cases fam; simp [MetricFamily.addSamples]

theorem addSamples_append (fam : MetricFamily) (a b : List (List Val × Val)) :
    (fam.addSamples a).addSamples b = fam.addSamples (a ++ b) := by
  cases fam; simp [MetricFamily.addSamples]

theorem add_metric_eq_addSamples (fam : MetricFamily) (lv : List Val) (v : Val) :
    fam.add_metric lv v = fam.addSamples [(lv, v)] := rfl

/-- The id label value of one resource. -/
def CRSpec.idOf (r : Record) : Val := (lookupV r "id").getD (Val.s "")

/-- Samples contributed by a resource list to the usage family of key
`k`, in resource order then item order (filter form). -/
def CRSpec.usageSamples (k : String) (resources : List Record) : List (List Val × Val) :=
  resources.flatMap (fun r =>
    (r.filter (fun kv => kv.1 = k)).map (fun kv => ([CRSpec.idOf r], kv.2)))

/-- Samples contributed to the guest info family: one per `lxc`/`qemu`
resource, labels (id, node, name, type) with empty-string defaults. -/
def CRSpec.guestSamples (resources : List Record) : List (List Val × Val) :=
  resources.flatMap (fun r =>
    if lookupV r "type" = some (Val.s "lxc") ∨ lookupV r "type" = some (Val.s "qemu") then
      [(["id", "node", "name", "type"].map (fun key => pyGetD r key (Val.s "")), Val.i 1)]
    else [])

/-- Samples contributed to the storage info family: one per `storage`
resource, labels (id, node, storage) with empty-string defaults. -/
def CRSpec.storageSamples (resources : List Record) : List (List Val × Val) :=
  resources.flatMap (fun r =>
    if lookupV r "type" = some (Val.s "storage") then
      [(["id", "node", "storage"].map (fun key => pyGetD r key (Val.s "")), Val.i 1)]
    else [])

/-- Append every sample contributed by a resource list to a family state. -/
def CRFamilies.addAll (st : CRFamilies) (resources : List Record) : CRFamilies :=
  { usage := st.usage.map (fun p => (p.1, p.2.addSamples (CRSpec.usageSamples p.1 resources))),
    guest := st.guest.addSamples (CRSpec.guestSamples resources),
    storage := st.storage.addSamples (CRSpec.storageSamples resources) }

theorem itemsFold_spec (idv : Val) :
    ∀ (items : List (String × Val)) (st : CRFamilies),
      (∀ p ∈ st.usage, p.1 ∈ ClusterResourcesCollector.usageKeyNames) →
      items.foldl (fun st kv =>
        if ClusterResourcesCollector.usageKeyNames.contains kv.1 then
          st.addUsage kv.1 [idv] kv.2 else st) st =
      { st with usage := st.usage.map (fun p =>
          (p.1, p.2.addSamples ((items.filter (fun kv => kv.1 = p.1)).map
            (fun kv => ([idv], kv.2))))) } := by
  intro items
  induction items with
  | nil =>
    intro st _
    cases st with
    | mk usage guest storage =>
      simp only [List.foldl_nil, List.filter_nil, List.map_nil, addSamples_nil]
      simp [List.map_id']
  | cons kv items ih =>
    intro st hkeys
    by_cases hc : ClusterResourcesCollector.usageKeyNames.contains kv.1 = true
    · rw [List.foldl_cons, if_pos hc]
      have hkeys' : ∀ p ∈ (st.addUsage kv.1 [idv] kv.2).usage,
          p.1 ∈ ClusterResourcesCollector.usageKeyNames := by
        intro p hp
        simp only [CRFamilies.addUsage, List.mem_map] at hp
        obtain ⟨q, hq, hpe⟩ := hp
        by_cases he : q.1 = kv.1
        · subst hpe; simp only [if_pos he]; exact hkeys q hq
        · subst hpe; simp only [if_neg he]; exact hkeys q hq
      rw [ih _ hkeys']
      cases st with
      | mk usage guest storage =>
        simp only [CRFamilies.addUsage, List.map_map]
        congr 1
        apply List.map_congr_left
        intro p hp
        by_cases he : p.1 = kv.1
        · simp only [Function.comp, if_pos he, add_metric_eq_addSamples, addSamples_append,
                     List.filter_cons]
          rw [if_pos (by simp [he.symm])]
          simp
        · have hne : kv.1 ≠ p.1 := fun h => he h.symm
          simp only [Function.comp, if_neg he, List.filter_cons]
          rw [if_neg (by simp [hne])]
    · rw [List.foldl_cons, if_neg hc]
      rw [ih _ hkeys]
      cases st with
      | mk usage guest storage =>
        congr 1
        apply List.map_congr_left
        intro p hp
        have hne : kv.1 ≠ p.1 := by
          intro he
          exact hc (by simp [List.contains, List.elem_iff, he, hkeys p hp])
        simp only [List.filter_cons]
        rw [if_neg (by simp [hne])]

theorem usageSamples_single (k : String) (r : Record) :
    CRSpec.usageSamples k [r] =
      (r.filter (fun kv => kv.1 = k)).map (fun kv => ([CRSpec.idOf r], kv.2)) := by
  simp [CRSpec.usageSamples]

theorem guestSamples_single (r : Record) :
    CRSpec.guestSamples [r] =
      (if lookupV r "type" = some (Val.s "lxc") ∨ lookupV r "type" = some (Val.s "qemu") then
        [(["id", "node", "name", "type"].map (fun key => pyGetD r key (Val.s "")), Val.i 1)]
      else []) := by
  simp [CRSpec.guestSamples]

theorem storageSamples_single (r : Record) :
    CRSpec.storageSamples [r] =
      (if lookupV r "type" = some (Val.s "storage") then
        [(["id", "node", "storage"].map (fun key => pyGetD r key (Val.s "")), Val.i 1)]
      else []) := by
  simp [CRSpec.storageSamples]

theorem usageSamples_cons (k : String) (r : Record) (rs : List Record) :
    CRSpec.usageSamples k (r :: rs) =
      (r.filter (fun kv => kv.1 = k)).map (fun kv => ([CRSpec.idOf r], kv.2)) ++
        CRSpec.usageSamples k rs := by
  simp [CRSpec.usageSamples]

theorem guestSamples_cons (r : Record) (rs : List Record) :
    CRSpec.guestSamples (r :: rs) =
      CRSpec.guestSamples [r] ++ CRSpec.guestSamples rs := by
  rw [guestSamples_single]
  simp [CRSpec.guestSamples]

theorem storageSamples_cons (r : Record) (rs : List Record) :
    CRSpec.storageSamples (r :: rs) =
      CRSpec.storageSamples [r] ++ CRSpec.storageSamples rs := by
  rw [storageSamples_single]
  simp [CRSpec.storageSamples]

theorem addAll_cons (st : CRFamilies) (r : Record) (rs : List Record) :
    (st.addAll [r]).addAll rs = st.addAll (r :: rs) := by
  cases st with
  | mk usage guest storage =>
    simp only [CRFamilies.addAll, List.map_map]
    congr 1
    · apply List.map_congr_left
      intro p hp
      simp only [Function.comp]
      rw [addSamples_append]
      rw [show CRSpec.usageSamples p.1 [r] ++ CRSpec.usageSamples p.1 rs =
            CRSpec.usageSamples p.1 (r :: rs) from by simp [CRSpec.usageSamples]]
    · rw [addSamples_append]
      rw [show CRSpec.guestSamples [r] ++ CRSpec.guestSamples rs =
            CRSpec.guestSamples (r :: rs) from by simp [CRSpec.guestSamples]]
    · rw [addSamples_append]
      rw [show CRSpec.storageSamples [r] ++ CRSpec.storageSamples rs =
            CRSpec.storageSamples (r :: rs) from by simp [CRSpec.storageSamples]]

theorem step_spec (st : CRFamilies) (r : Record)
    (hkeys : ∀ p ∈ st.usage, p.1 ∈ ClusterResourcesCollector.usageKeyNames)
    (hty : (lookupV r "type").isSome) (hid : (lookupV r "id").isSome) :
    ClusterResourcesCollector.step st r = .ok (st.addAll [r]) := by
  obtain ⟨t, ht⟩ := Option.isSome_iff_exists.mp hty
  obtain ⟨idv, hidv⟩ := Option.isSome_iff_exists.mp hid
  have hid' : CRSpec.idOf r = idv := by simp [CRSpec.idOf, hidv]
  have hguest : ∀ tgt lv, (CRFamilies.addInfo st tgt lv).usage = st.usage := by
    intro tgt lv
    cases tgt <;> simp [CRFamilies.addInfo]
  simp only [ClusterResourcesCollector.step, pyGet_ok_of_lookup _ _ _ ht,
             pyGet_ok_of_lookup _ _ _ hidv, exc_bind_ok, exc_pure]
  by_cases hg : t = Val.s "lxc" ∨ t = Val.s "qemu"
  · have hns : ¬ t = Val.s "storage" := by
      rcases hg with h | h <;> subst h <;> simp
    have hil : info_lookup t = some (["id", "node", "name", "type"], InfoTarget.guest) := by
      simp [info_lookup, hg]
    rw [hil]
    rw [itemsFold_spec idv r _ (by rw [hguest]; exact hkeys)]
    cases st with
    | mk usage guest storage =>
      simp only [CRFamilies.addInfo, CRFamilies.addAll, usageSamples_single,
                 guestSamples_cons, storageSamples_cons, CRSpec.guestSamples,
                 CRSpec.storageSamples, List.flatMap_nil, List.flatMap_cons, ht]
      rw [if_pos (by rcases hg with h | h <;> subst h <;> simp),
          if_neg (by simpa using hns)]
      simp [add_metric_eq_addSamples, addSamples_nil, hid']
  · by_cases hs : t = Val.s "storage"
    · have hil : info_lookup t = some (["id", "node", "storage"], InfoTarget.storage) := by
        simp [info_lookup, hg, hs]
      rw [hil]
      rw [itemsFold_spec idv r _ (by rw [hguest]; exact hkeys)]
      cases st with
      | mk usage guest storage =>
        simp only [CRFamilies.addInfo, CRFamilies.addAll, usageSamples_single,
                   CRSpec.guestSamples, CRSpec.storageSamples,
                   List.flatMap_nil, List.flatMap_cons, ht]
        rw [if_neg (by simpa using hg), if_pos (by simp [hs])]
        simp [add_metric_eq_addSamples, addSamples_nil, hid']
    · have hil : info_lookup t = none := by
        simp [info_lookup, hg, hs]
      rw [hil]
      rw [itemsFold_spec idv r _ hkeys]
      cases st with
      | mk usage guest storage =>
        simp only [CRFamilies.addAll, usageSamples_single,
                   CRSpec.guestSamples, CRSpec.storageSamples,
                   List.flatMap_nil, List.flatMap_cons, ht]
        rw [if_neg (by simpa using hg), if_neg (by simpa using hs)]
        simp [addSamples_nil, hid']

theorem addAll_nil (st : CRFamilies) : st.addAll [] = st := by
  cases st with
  | mk usage guest storage =>
    simp only [CRFamilies.addAll, CRSpec.usageSamples, CRSpec.guestSamples,
               CRSpec.storageSamples, List.flatMap_nil, addSamples_nil]
    simp

theorem CR_fold_spec :
    ∀ (resources : List Record) (st : CRFamilies),
      (∀ p ∈ st.usage, p.1 ∈ ClusterResourcesCollector.usageKeyNames) →
      (∀ r ∈ resources, (lookupV r "type").isSome ∧ (lookupV r "id").isSome) →
      foldE ClusterResourcesCollector.step st resources = .ok (st.addAll resources) := by
  intro resources
  induction resources with
  | nil =>
    intro st _ _
    rw [addAll_nil]
    rfl
  | cons r rs ih =>
    intro st hkeys hwf
    have hstep := step_spec st r hkeys (hwf r (by simp)).1 (hwf r (by simp)).2
    simp only [foldE, hstep, exc_bind_ok]
    have hkeys' : ∀ p ∈ (st.addAll [r]).usage,
        p.1 ∈ ClusterResourcesCollector.usageKeyNames := by
      intro p hp
      simp only [CRFamilies.addAll, List.mem_map] at hp
      obtain ⟨q, hq, hpe⟩ := hp
      subst hpe
      exact hkeys q hq
    rw [ih _ hkeys' (fun x hx => hwf x (List.mem_cons_of_mem r hx))]
    rw [addAll_cons]

/-- The full expected output of `ClusterResourcesCollector.collect`:
the eleven usage families (labeled only by id) in source order followed
by the guest and storage info families. -/
def CRSpec.fams (resources : List Record) : List MetricFamily :=
  ClusterResourcesCollector.usageKeys.map (fun t =>
    { name := t.2.1, help := t.2.2, labels := ["id"],
      samples := CRSpec.usageSamples t.1 resources }) ++
  [{ name := "pve_guest_info", help := "VM/CT info",
     labels := ["id", "node", "name", "type"],
     samples := CRSpec.guestSamples resources },
   { name := "pve_storage_info", help := "Storage info",
     labels := ["id", "node", "storage"],
     samples := CRSpec.storageSamples resources }]

theorem CR_collect_spec (resources : List Record)
    (h : ∀ r ∈ resources, (lookupV r "type").isSome ∧ (lookupV r "id").isSome) :
    ClusterResourcesCollector.collect resources = .ok (CRSpec.fams resources) := by
  have hkeys : ∀ p ∈ ClusterResourcesCollector.initFamilies.usage,
      p.1 ∈ ClusterResourcesCollector.usageKeyNames := by decide
  simp only [ClusterResourcesCollector.collect]
  rw [CR_fold_spec resources _ hkeys h]
  simp only [exc_bind_ok, exc_pure]
  congr 1

theorem flatMap_congr (f g : α → List β) :
    ∀ l : List α, (∀ a ∈ l, f a = g a) → l.flatMap f = l.flatMap g := by
  intro l
  induction l with
  | nil => intro _; rfl
  | cons a as ih =>
    intro h
    simp only [List.flatMap_cons, h a (List.mem_cons_self a as),
               ih (fun x hx => h x (List.mem_cons_of_mem a hx))]

theorem filter_key_eq_lookup (r : Record) (k : String) (hnd : (keysOf r).Nodup) :
    r.filter (fun kv => kv.1 = k) =
      (match lookupV r k with
       | some v => [(k, v)]
       | none => []) := by
  induction r with
  | nil => rfl
  | cons hd rest ih =>
    simp only [keysOf, List.map_cons, List.nodup_cons] at hnd
    by_cases h : hd.1 = k
    · have hnone : ∀ kv ∈ rest, ¬ (kv.1 = k) := by
        intro kv hkv he
        apply hnd.1
        rw [h, ← he]
        exact List.mem_map_of_mem Prod.fst hkv
      have hfil : rest.filter (fun kv => kv.1 = k) = [] :=
        List.filter_eq_nil_iff.mpr (by intro kv hkv; simpa using hnone kv hkv)
      simp only [List.filter_cons, lookupV, if_pos h]
      rw [if_pos (by simp [h])]
      rw [hfil]
      simp [← h]
    · simp only [List.filter_cons, lookupV, if_neg h]
      rw [if_neg (by simp [h])]
      exact ih hnd.2

/-- Usage samples in per-key lookup form: a resource contributes one
sample (signed with its id) to the family of key `k` exactly when `k`
is present on it, and none otherwise. -/
def CRSpec.usageSamplesL (k : String) (resources : List Record) : List (List Val × Val) :=
  resources.flatMap (fun r =>
    match lookupV r k with
    | some v => [([CRSpec.idOf r], v)]
    | none => [])

/-- Expected collector output, usage samples in lookup form. -/
def CRSpec.famsL (resources : List Record) : List MetricFamily :=
  ClusterResourcesCollector.usageKeys.map (fun t =>
    { name := t.2.1, help := t.2.2, labels := ["id"],
      samples := CRSpec.usageSamplesL t.1 resources }) ++
  [{ name := "pve_guest_info", help := "VM/CT info",
     labels := ["id", "node", "name", "type"],
     samples := CRSpec.guestSamples resources },
   { name := "pve_storage_info", help := "Storage info",
     labels := ["id", "node", "storage"],
     samples := CRSpec.storageSamples resources }]

/-- Claim C2: `ClusterResourcesCollector.collect` adds, per resource
and per recognized usage key present on that resource, one sample to
that key's usage family labeled only by the resource id with the
resource's value (absent keys contribute no sample); each `lxc`/`qemu`
resource adds one guest info sample with labels (id, node, name, type),
each `storage` resource one storage info sample with labels (id, node,
storage), value 1, missing label keys defaulting to the empty string;
resources of any other type contribute no info sample. -/
theorem claim_C2 (resources : List Record)
    (hwf : ∀ r ∈ resources, (lookupV r "type").isSome ∧ (lookupV r "id").isSome)
    (hnd : ∀ r ∈ resources, (keysOf r).Nodup) :
    ClusterResourcesCollector.collect resources = .ok (CRSpec.famsL resources) := by
  rw [CR_collect_spec resources hwf]
  congr 1
  simp only [CRSpec.fams, CRSpec.famsL]
  congr 1
  apply List.map_congr_left
  intro t ht
  congr 1
  simp only [CRSpec.usageSamples, CRSpec.usageSamplesL]
  apply flatMap_congr
  intro r hr
  rw [filter_key_eq_lookup r t.1 (hnd r hr)]
  cases lookupV r t.1 <;> simp

/-- Witness input for claim C2: the resource from the spec example. -/
def wResC2 : List Record :=
  [[("id", Val.s "qemu/102"), ("type", Val.s "qemu"), ("node", Val.s "n1"),
    ("name", Val.s "vm1"), ("mem", Val.i 1024), ("cpu", Val.i 1)]]

/-- Witness for claim C2 at a concrete input. -/
theorem claim_C2_witness :
    ClusterResourcesCollector.collect wResC2 = .ok (CRSpec.famsL wResC2) :=
  claim_C2 wResC2 (by decide) (by decide)

/-! ### Family-count and label invariants of the resources collector (claim C3) -/

/-- Shape of the family state: usage keys, family names, help strings
and label lists (everything except the samples). -/
def CRFamilies.shape (st : CRFamilies) :
    List (String × String × String × List String) ×
    (String × List String) × (String × List String) :=
  (st.usage.map (fun p => (p.1, p.2.name, p.2.help, p.2.labels)),
   (st.guest.name, st.guest.labels), (st.storage.name, st.storage.labels))

theorem addUsage_shape (st : CRFamilies) (k : String) (lv : List Val) (v : Val) :
    (st.addUsage k lv v).shape = st.shape := by
  cases st with
  | mk usage guest storage =>
    have hm : (usage.map (fun p =>
        if p.1 = k then (p.1, p.2.add_metric lv v) else p)).map
          (fun p => (p.1, p.2.name, p.2.help, p.2.labels)) =
        usage.map (fun p => (p.1, p.2.name, p.2.help, p.2.labels)) := by
      rw [List.map_map]
      apply List.map_congr_left
      intro p hp
      by_cases h : p.1 = k
      · simp [Function.comp, h, MetricFamily.add_metric]
      · simp [Function.comp, h]
    simp only [CRFamilies.addUsage, CRFamilies.shape]
    rw [hm]

theorem addInfo_shape (st : CRFamilies) (tgt : InfoTarget) (lv : List Val) :
    (st.addInfo tgt lv).shape = st.shape := by
  cases tgt <;> cases st <;>
    simp [CRFamilies.addInfo, CRFamilies.shape, MetricFamily.add_metric]

theorem itemsFold_shape (idv : Val) :
    ∀ (items : List (String × Val)) (st : CRFamilies),
      (items.foldl (fun st kv =>
        if ClusterResourcesCollector.usageKeyNames.contains kv.1 then
          st.addUsage kv.1 [idv] kv.2 else st) st).shape = st.shape := by
  intro items
  induction items with
  | nil => intro st; rfl
  | cons kv items ih =>
    intro st
    rw [List.foldl_cons]
    by_cases h : ClusterResourcesCollector.usageKeyNames.contains kv.1 = true
    · rw [if_pos h, ih, addUsage_shape]
    · rw [if_neg h, ih]

theorem step_shape (st st' : CRFamilies) (r : Record)
    (h : ClusterResourcesCollector.step st r = .ok st') : st'.shape = st.shape := by
  simp only [ClusterResourcesCollector.step] at h
  cases hty : pyGet r "type" with
  | error e => rw [hty, exc_bind_error] at h; cases h
  | ok t =>
    rw [hty, exc_bind_ok] at h
    cases hid : pyGet r "id" with
    | error e => rw [hid, exc_bind_error] at h; cases h
    | ok idv =>
      rw [hid, exc_bind_ok, exc_pure] at h
      injection h with h
      rw [← h, itemsFold_shape]
      cases hil : info_lookup t with
      | none => rfl
      | some p =>
        cases p with
        | mk ls tgt => exact addInfo_shape st tgt _

theorem foldE_step_shape :
    ∀ (resources : List Record) (st st' : CRFamilies),
      foldE ClusterResourcesCollector.step st resources = .ok st' →
      st'.shape = st.shape := by
  intro resources
  induction resources with
  | nil =>
    intro st st' h
    simp only [foldE] at h
    injection h with h
    rw [h]
  | cons r rs ih =>
    intro st st' h
    simp only [foldE] at h
    cases hstep : ClusterResourcesCollector.step st r with
    | error e => rw [hstep, exc_bind_error] at h; cases h
    | ok st1 =>
      rw [hstep, exc_bind_ok] at h
      exact (ih st1 st' h).trans (step_shape st st1 r hstep)

/-- Counterexample to claim C3 as stated: on the empty resource list
the collector emits 13 metric families, not 12 (the recognized usage
keys number 11, not 10). -/
theorem claim_C3_counterexample :
    (ClusterResourcesCollector.collect ([] : List Record)).map List.length ≠
      Except.ok 12 := by
  decide

/-- Claim C3 (amended): whenever `ClusterResourcesCollector.collect`
returns, its output consists of exactly 11 usage metric families (all
labeled only by id, in source order) plus 2 info metric families, 13
in total, all always emitted even with zero samples, the recognized
usage keys being maxdisk, disk, maxmem, mem, netout, netin, diskwrite,
diskread, cpu, maxcpu, uptime. -/
theorem claim_C3 (resources : List Record) (fams : List MetricFamily)
    (h : ClusterResourcesCollector.collect resources = .ok fams) :
    fams.map (fun f => (f.name, f.labels)) =
      [("pve_disk_size_bytes", ["id"]), ("pve_disk_usage_bytes", ["id"]),
       ("pve_memory_size_bytes", ["id"]), ("pve_memory_usage_bytes", ["id"]),
       ("pve_network_transmit_bytes", ["id"]), ("pve_network_receive_bytes", ["id"]),
       ("pve_disk_write_bytes", ["id"]), ("pve_disk_read_bytes", ["id"]),
       ("pve_cpu_usage_ratio", ["id"]), ("pve_cpu_usage_limit", ["id"]),
       ("pve_uptime_seconds", ["id"]),
       ("pve_guest_info", ["id", "node", "name", "type"]),
       ("pve_storage_info", ["id", "node", "storage"])] ∧
    fams.length = 13 ∧
    ClusterResourcesCollector.usageKeyNames =
      ["maxdisk", "disk", "maxmem", "mem", "netout", "netin", "diskwrite", "diskread",
       "cpu", "maxcpu", "uptime"] := by
  simp only [ClusterResourcesCollector.collect] at h
  cases hf : foldE ClusterResourcesCollector.step ClusterResourcesCollector.initFamilies
      resources with
  | error e => rw [hf, exc_bind_error] at h; cases h
  | ok st =>
    rw [hf, exc_bind_ok, exc_pure] at h
    injection h with h
    have hshape := foldE_step_shape resources ClusterResourcesCollector.initFamilies st hf
    have husage := congrArg (fun x : List (String × String × String × List String) ×
        (String × List String) × (String × List String) =>
      x.1.map (fun q => (q.2.1, q.2.2.2))) hshape
    have hguest := congrArg (fun x : List (String × String × String × List String) ×
        (String × List String) × (String × List String) => x.2.1) hshape
    have hstorage := congrArg (fun x : List (String × String × String × List String) ×
        (String × List String) × (String × List String) => x.2.2) hshape
    simp only [CRFamilies.shape, List.map_map, Function.comp_def] at husage hguest hstorage
    have hmain : fams.map (fun f => (f.name, f.labels)) =
        [("pve_disk_size_bytes", ["id"]), ("pve_disk_usage_bytes", ["id"]),
         ("pve_memory_size_bytes", ["id"]), ("pve_memory_usage_bytes", ["id"]),
         ("pve_network_transmit_bytes", ["id"]), ("pve_network_receive_bytes", ["id"]),
         ("pve_disk_write_bytes", ["id"]), ("pve_disk_read_bytes", ["id"]),
         ("pve_cpu_usage_ratio", ["id"]), ("pve_cpu_usage_limit", ["id"]),
         ("pve_uptime_seconds", ["id"]),
         ("pve_guest_info", ["id", "node", "name", "type"]),
         ("pve_storage_info", ["id", "node", "storage"])] := by
      rw [← h]
      simp only [List.map_append, List.map_map, List.map_cons, List.map_nil,
                 Function.comp_def]
      rw [husage, hguest, hstorage]
      rfl
    refine ⟨hmain, ?_, by decide⟩
    have := congrArg List.length hmain
    simpa using this

/-- Witness for claim C3 at the empty input. -/
theorem claim_C3_witness :
    (okD (ClusterResourcesCollector.collect ([] : List Record)) []).length = 13 :=
  (claim_C3 [] (okD (ClusterResourcesCollector.collect []) []) (by decide)).2.1

/-! ### Node and cluster info collectors: characterization (claims C6, C10) -/

theorem mem_keys_eraseKey_iff (r : Record) (k k' : String) (hne : k' ≠ k) :
    k' ∈ keysOf (eraseKey r k) ↔ k' ∈ keysOf r := by
  rw [← lookupV_isSome_iff_mem, ← lookupV_isSome_iff_mem,
      lookupV_eraseKey_of_ne r k k' hne]

theorem mem_keys_pySet_iff (r : Record) (k k' : String) (v : Val) :
    k' ∈ keysOf (pySet r k v) ↔ (k' = k ∨ k' ∈ keysOf r) := by
  by_cases he : k' = k
  · subst he
    rw [← lookupV_isSome_iff_mem, lookupV_pySet_self]
    simp
  · rw [← lookupV_isSome_iff_mem, lookupV_pySet_ne r k k' v he,
        lookupV_isSome_iff_mem]
    simp [he]

/-- Filter predicate of the node collector. -/
def isNodeEntry (e : Record) : Bool := lookupV e "type" == some (Val.s "node")

/-- Filter predicate of the cluster info collector. -/
def isClusterEntry (e : Record) : Bool := lookupV e "type" == some (Val.s "cluster")

/-- Net effect of the node collector's key stripping on one entry. -/
def stripNodeSpec (e : Record) : Record := eraseKey (eraseKey e "type") "online"

/-- Net effect of the cluster info collector's mutation on one entry:
drop `type`, overwrite `id` with `cluster/<name>`, drop `name`. -/
def stripClusterSpec (e : Record) : Record :=
  eraseKey (pySet (eraseKey e "type") "id"
    (Val.s ("cluster/" ++ pyStr ((lookupV e "name").getD (Val.s ""))))) "name"

/-- One emitted info row: the entry's values in label order, converted
with `str()`, paired with metric value 1. -/
def nodeRow (labels : List String) (n : Record) : List Val × Val :=
  (labels.map (fun k => Val.s (pyStr ((lookupV n k).getD (Val.s "")))), Val.i 1)

theorem stripNodeE_ok (e : Record) (hty : "type" ∈ keysOf e)
    (honl : "online" ∈ keysOf e) : stripNodeE e = .ok (stripNodeSpec e) := by
  have h1 := pyDel_ok_of_mem e "type" hty
  have h2 := pyDel_ok_of_mem (eraseKey e "type") "online"
    ((mem_keys_eraseKey_iff e "type" "online" (by decide)).mpr honl)
  simp [stripNodeE, h1, h2, exc_bind_ok, stripNodeSpec]

theorem stripClusterE_ok (e : Record) (hty : "type" ∈ keysOf e)
    (hname : isStrOpt (lookupV e "name") = true) :
    stripClusterE e = .ok (stripClusterSpec e) := by
  cases hn : lookupV e "name" with
  | none => rw [hn] at hname; simp [isStrOpt] at hname
  | some nv =>
    cases nv with
    | i n => rw [hn] at hname; simp [isStrOpt] at hname
    | b bv => rw [hn] at hname; simp [isStrOpt] at hname
    | s nm =>
      have h1 := pyDel_ok_of_mem e "type" hty
      have h2 : lookupV (eraseKey e "type") "name" = some (Val.s nm) := by
        rw [lookupV_eraseKey_of_ne e "type" "name" (by decide), hn]
      have hmem : "name" ∈ keysOf (pySet (eraseKey e "type") "id"
          (Val.s ("cluster/" ++ nm))) := by
        rw [mem_keys_pySet_iff]
        right
        exact (lookupV_isSome_iff_mem _ _).mp (by rw [h2]; rfl)
      have h3 := pyDel_ok_of_mem (pySet (eraseKey e "type") "id"
        (Val.s ("cluster/" ++ nm))) "name" hmem
      simp [stripClusterE, h1, exc_bind_ok, pyGet_ok_of_lookup _ _ _ h2, fmtS, h3,
            stripClusterSpec, hn, pyStr]

theorem rowMapE_ok (n : Record) (labels : List String)
    (hlab : ∀ k ∈ labels, k ∈ keysOf n) :
    (mapE (fun key => (pyGet n key).map (fun v => Val.s (pyStr v))) labels).map
      (fun vs => (vs, Val.i 1)) = .ok (nodeRow labels n) := by
  have h := mapE_ok_of_forall (fun key => (pyGet n key).map (fun v => Val.s (pyStr v)))
    (fun k => Val.s (pyStr ((lookupV n k).getD (Val.s "")))) labels ?_
  · rw [h]
    rfl
  · intro k hk
    obtain ⟨v, hv⟩ := Option.isSome_iff_exists.mp
      ((lookupV_isSome_iff_mem n k).mpr (hlab k hk))
    simp [pyGet_ok_of_lookup _ _ _ hv, Except.map, hv]

theorem keysOf_stripNodeSpec (e : Record) :
    keysOf (stripNodeSpec e) =
      ((keysOf e).eraseP (fun x => x == "type")).eraseP (fun x => x == "online") := by
  simp [stripNodeSpec, keysOf_eraseKey]

theorem keysOf_stripClusterSpec (e : Record) :
    keysOf (stripClusterSpec e) =
      (let k1 := (keysOf e).eraseP (fun x => x == "type")
       (if "id" ∈ k1 then k1 else k1 ++ ["id"]).eraseP (fun x => x == "name")) := by
  simp only [stripClusterSpec, keysOf_eraseKey]
  by_cases hm : "id" ∈ keysOf (eraseKey e "type")
  · rw [keysOf_pySet_of_mem _ _ _ hm, keysOf_eraseKey] at *
    simp [hm]
  · rw [keysOf_pySet_of_not_mem _ _ _ hm, keysOf_eraseKey] at *
    simp [hm]

theorem mutateNodes_ok (status : List Record)
    (htype : ∀ e ∈ status, (lookupV e "type").isSome)
    (honl : ∀ e ∈ status, isNodeEntry e = true → "online" ∈ keysOf e) :
    mutateByType "node" stripNodeE status =
      .ok (status.map (fun e => if isNodeEntry e then stripNodeSpec e else e)) := by
  apply mapE_ok_of_forall
  intro e he
  obtain ⟨t, ht⟩ := Option.isSome_iff_exists.mp (htype e he)
  by_cases hn : isNodeEntry e = true
  · have htn : t = Val.s "node" := by
      have := hn
      simp only [isNodeEntry, beq_iff_eq, ht] at this
      exact (Option.some_inj.mp this)
    subst htn
    have hmem : "type" ∈ keysOf e := (lookupV_isSome_iff_mem e "type").mp (by rw [ht]; rfl)
    simp [pyGet_ok_of_lookup _ _ _ ht, exc_bind_ok, hn,
          stripNodeE_ok e hmem (honl e he hn)]
  · have htn : ¬ t = Val.s "node" := by
      intro hcon
      apply hn
      simp [isNodeEntry, ht, hcon]
    simp only [pyGet_ok_of_lookup _ _ _ ht, exc_bind_ok, if_neg htn, exc_pure]
    rw [if_neg hn]

theorem mutateClusters_ok (status : List Record)
    (htype : ∀ e ∈ status, (lookupV e "type").isSome)
    (hname : ∀ e ∈ status, isClusterEntry e = true → isStrOpt (lookupV e "name") = true) :
    mutateByType "cluster" stripClusterE status =
      .ok (status.map (fun e => if isClusterEntry e then stripClusterSpec e else e)) := by
  apply mapE_ok_of_forall
  intro e he
  obtain ⟨t, ht⟩ := Option.isSome_iff_exists.mp (htype e he)
  by_cases hn : isClusterEntry e = true
  · have htn : t = Val.s "cluster" := by
      have := hn
      simp only [isClusterEntry, beq_iff_eq, ht] at this
      exact (Option.some_inj.mp this)
    subst htn
    have hmem : "type" ∈ keysOf e := (lookupV_isSome_iff_mem e "type").mp (by rw [ht]; rfl)
    simp [pyGet_ok_of_lookup _ _ _ ht, exc_bind_ok, hn,
          stripClusterE_ok e hmem (hname e he hn)]
  · have htn : ¬ t = Val.s "cluster" := by
      intro hcon
      apply hn
      simp [isClusterEntry, ht, hcon]
    simp only [pyGet_ok_of_lookup _ _ _ ht, exc_bind_ok, if_neg htn, exc_pure]
    rw [if_neg hn]

theorem nodeCollect_spec (status : List Record)
    (htype : ∀ e ∈ status, (lookupV e "type").isSome)
    (hne : status.filter (fun e => lookupV e "type" == some (Val.s "node")) ≠ [])
    (honl : ∀ e ∈ status, isNodeEntry e = true → "online" ∈ keysOf e)
    (hhomog : ∀ e ∈ status.filter (fun e => lookupV e "type" == some (Val.s "node")),
      keysOf e = keysOf
        (status.filter (fun e => lookupV e "type" == some (Val.s "node"))).headI) :
    ClusterNodeCollector.collect status =
      .ok ([{ name := "pve_node_info", help := "Node info",
              labels := keysOf (stripNodeSpec
                (status.filter (fun e => lookupV e "type" == some (Val.s "node"))).headI),
              samples := ((status.filter
                  (fun e => lookupV e "type" == some (Val.s "node"))).map stripNodeSpec).map
                (nodeRow (keysOf (stripNodeSpec (status.filter
                  (fun e => lookupV e "type" == some (Val.s "node"))).headI))) }],
            status.map (fun e => if isNodeEntry e then stripNodeSpec e else e)) := by
  have hsel := selectType_ok "node" status htype
  set nodes := status.filter (fun e => lookupV e "type" == some (Val.s "node")) with hnodes
  have hmemkeys : ∀ e ∈ nodes, "type" ∈ keysOf e ∧ "online" ∈ keysOf e := by
    intro e he
    have hmem := List.mem_filter.mp he
    have hn : isNodeEntry e = true := hmem.2
    refine ⟨?_, honl e hmem.1 hn⟩
    simp only [isNodeEntry, beq_iff_eq] at hn
    exact (lookupV_isSome_iff_mem e "type").mp (by rw [hn]; rfl)
  have hstrip : mapE stripNodeE nodes = .ok (nodes.map stripNodeSpec) := by
    apply mapE_ok_of_forall
    intro e he
    exact stripNodeE_ok e (hmemkeys e he).1 (hmemkeys e he).2
  have hmut := mutateNodes_ok status htype honl
  have hkeysall : ∀ n ∈ nodes.map stripNodeSpec,
      keysOf n = keysOf (stripNodeSpec nodes.headI) := by
    intro n hn
    obtain ⟨e, he, hen⟩ := List.mem_map.mp hn
    rw [← hen, keysOf_stripNodeSpec, keysOf_stripNodeSpec, hhomog e he]
  have hsamples : mapE (fun node =>
      (mapE (fun key => (pyGet node key).map (fun v => Val.s (pyStr v)))
        (keysOf (nodes.map stripNodeSpec).headI)).map
        (fun vs => (vs, Val.i 1))) (nodes.map stripNodeSpec) =
      .ok ((nodes.map stripNodeSpec).map
        (nodeRow (keysOf (nodes.map stripNodeSpec).headI))) := by
    apply mapE_ok_of_forall
    intro n hn
    apply rowMapE_ok
    intro k hk
    cases hcase : nodes with
    | nil => exact absurd hcase hne
    | cons n0 nt =>
      rw [hcase] at hk hn
      simp only [List.map_cons, List.headI] at hk
      rw [hkeysall n (by rw [hcase]; exact hn)]
      rw [hcase]
      simpa [List.headI] using hk
  simp only [ClusterNodeCollector.collect]
  rw [hsel, exc_bind_ok, if_neg (by simpa [List.isEmpty_iff] using hne)]
  rw [hstrip, exc_bind_ok, hmut, exc_bind_ok, hsamples, exc_bind_ok, exc_pure]
  cases hcase : nodes with
  | nil => exact absurd hcase hne
  | cons n0 nt => simp [List.headI]

/-- Second mutation pass of the cluster info collector on one
already-`type`-stripped entry. -/
def stripCluster2Spec (c : Record) : Record :=
  eraseKey (pySet c "id"
    (Val.s ("cluster/" ++ pyStr ((lookupV c "name").getD (Val.s ""))))) "name"

theorem stripClusterSpec_eq (e : Record) :
    stripCluster2Spec (eraseKey e "type") = stripClusterSpec e := by
  simp [stripCluster2Spec, stripClusterSpec,
        lookupV_eraseKey_of_ne e "type" "name" (by decide)]

theorem stripCluster2_ok (c : Record) (hname : isStrOpt (lookupV c "name") = true) :
    (do
      let name ← pyGet c "name"
      let nameS ← fmtS name
      pyDel (pySet c "id" (Val.s ("cluster/" ++ nameS))) "name" :
        Except String Record) = .ok (stripCluster2Spec c) := by
  cases hn : lookupV c "name" with
  | none => rw [hn] at hname; simp [isStrOpt] at hname
  | some nv =>
    cases nv with
    | i n => rw [hn] at hname; simp [isStrOpt] at hname
    | b bv => rw [hn] at hname; simp [isStrOpt] at hname
    | s nm =>
      have hmem : "name" ∈ keysOf (pySet c "id" (Val.s ("cluster/" ++ nm))) := by
        rw [mem_keys_pySet_iff]
        right
        exact (lookupV_isSome_iff_mem _ _).mp (by rw [hn]; rfl)
      have h3 := pyDel_ok_of_mem (pySet c "id" (Val.s ("cluster/" ++ nm))) "name" hmem
      simp [pyGet_ok_of_lookup _ _ _ hn, exc_bind_ok, fmtS, h3,
            stripCluster2Spec, hn, pyStr]

theorem clusterCollect_spec (status : List Record)
    (htype : ∀ e ∈ status, (lookupV e "type").isSome)
    (hne : status.filter (fun e => lookupV e "type" == some (Val.s "cluster")) ≠ [])
    (hname : ∀ e ∈ status, isClusterEntry e = true → isStrOpt (lookupV e "name") = true)
    (hhomog : ∀ e ∈ status.filter (fun e => lookupV e "type" == some (Val.s "cluster")),
      keysOf e = keysOf
        (status.filter (fun e => lookupV e "type" == some (Val.s "cluster"))).headI) :
    ClusterInfoCollector.collect status =
      .ok ([{ name := "pve_cluster_info", help := "Cluster info",
              labels := keysOf (stripClusterSpec
                (status.filter (fun e => lookupV e "type" == some (Val.s "cluster"))).headI),
              samples := ((status.filter
                  (fun e => lookupV e "type" == some (Val.s "cluster"))).map
                    stripClusterSpec).map
                (nodeRow (keysOf (stripClusterSpec (status.filter
                  (fun e => lookupV e "type" == some (Val.s "cluster"))).headI))) }],
            status.map (fun e => if isClusterEntry e then stripClusterSpec e else e)) := by
  have hsel := selectType_ok "cluster" status htype
  set clusters := status.filter (fun e => lookupV e "type" == some (Val.s "cluster"))
    with hclusters
  have hmemfil : ∀ e ∈ clusters, e ∈ status ∧ isClusterEntry e = true := by
    intro e he
    have hmem := List.mem_filter.mp he
    exact ⟨hmem.1, hmem.2⟩
  have hpass1 : mapE (fun c => pyDel c "type") clusters =
      .ok (clusters.map (fun c => eraseKey c "type")) := by
    apply mapE_ok_of_forall
    intro e he
    have hn := (hmemfil e he).2
    simp only [isClusterEntry, beq_iff_eq] at hn
    exact pyDel_ok_of_mem e "type" ((lookupV_isSome_iff_mem e "type").mp (by rw [hn]; rfl))
  have hpass2 : mapE (fun c => do
      let name ← pyGet c "name"
      let nameS ← fmtS name
      pyDel (pySet c "id" (Val.s ("cluster/" ++ nameS))) "name")
      (clusters.map (fun c => eraseKey c "type")) =
      .ok (clusters.map stripClusterSpec) := by
    have h := mapE_ok_of_forall (fun c => (do
        let name ← pyGet c "name"
        let nameS ← fmtS name
        pyDel (pySet c "id" (Val.s ("cluster/" ++ nameS))) "name" : Except String Record))
      stripCluster2Spec (clusters.map (fun c => eraseKey c "type")) ?_
    · rw [h, List.map_map]
      congr 1
      apply List.map_congr_left
      intro e he
      exact stripClusterSpec_eq e
    · intro c hc
      obtain ⟨e, he, hec⟩ := List.mem_map.mp hc
      apply stripCluster2_ok
      rw [← hec, lookupV_eraseKey_of_ne e "type" "name" (by decide)]
      exact hname e (hmemfil e he).1 (hmemfil e he).2
  have hmut := mutateClusters_ok status htype hname
  have hkeysall : ∀ n ∈ clusters.map stripClusterSpec,
      keysOf n = keysOf (stripClusterSpec clusters.headI) := by
    intro n hn
    obtain ⟨e, he, hen⟩ := List.mem_map.mp hn
    rw [← hen, keysOf_stripClusterSpec, keysOf_stripClusterSpec, hhomog e he]
  have hsamples : mapE (fun cluster =>
      (mapE (fun key => (pyGet cluster key).map (fun v => Val.s (pyStr v)))
        (keysOf (clusters.map stripClusterSpec).headI)).map
        (fun vs => (vs, Val.i 1))) (clusters.map stripClusterSpec) =
      .ok ((clusters.map stripClusterSpec).map
        (nodeRow (keysOf (clusters.map stripClusterSpec).headI))) := by
    apply mapE_ok_of_forall
    intro n hn
    apply rowMapE_ok
    intro k hk
    cases hcase : clusters with
    | nil => exact absurd hcase hne
    | cons n0 nt =>
      rw [hcase] at hk hn
      simp only [List.map_cons, List.headI] at hk
      rw [hkeysall n (by rw [hcase]; exact hn)]
      rw [hcase]
      simpa [List.headI] using hk
  simp only [ClusterInfoCollector.collect]
  rw [hsel, exc_bind_ok, if_neg (by simpa [List.isEmpty_iff] using hne)]
  rw [hpass1, exc_bind_ok, hpass2, exc_bind_ok, hmut, exc_bind_ok, hsamples,
      exc_bind_ok, exc_pure]
  cases hcase : clusters with
  | nil => exact absurd hcase hne
  | cons n0 nt => simp [List.headI]

/-- Claim C6: for a non-empty filtered set, the node and cluster info
collectors derive the emitted family's label list from the key set of
the first filtered entry after stripping the bookkeeping keys (`type`
and `online` for nodes; `type` and the raw `name` for clusters, whose
id is synthesized as `cluster/<name>`), and every entry's label values
are produced positionally in that label ordering by `str()`
conversion.  Hypotheses record the upstream schema assumptions the
source relies on: every entry carries a type tag, node entries carry
`online`, cluster entries carry a string `name`, and entries of one
type are key-homogeneous. -/
theorem claim_C6 (status : List Record)
    (htype : ∀ e ∈ status, (lookupV e "type").isSome) :
    ((status.filter (fun e => lookupV e "type" == some (Val.s "node")) ≠ []) →
     (∀ e ∈ status, isNodeEntry e = true → "online" ∈ keysOf e) →
     (∀ e ∈ status.filter (fun e => lookupV e "type" == some (Val.s "node")),
        keysOf e = keysOf
          (status.filter (fun e => lookupV e "type" == some (Val.s "node"))).headI) →
     ClusterNodeCollector.collect status =
       .ok ([{ name := "pve_node_info", help := "Node info",
               labels := keysOf (stripNodeSpec
                 (status.filter (fun e => lookupV e "type" == some (Val.s "node"))).headI),
               samples := ((status.filter
                   (fun e => lookupV e "type" == some (Val.s "node"))).map stripNodeSpec).map
                 (nodeRow (keysOf (stripNodeSpec (status.filter
                   (fun e => lookupV e "type" == some (Val.s "node"))).headI))) }],
             status.map (fun e => if isNodeEntry e then stripNodeSpec e else e))) ∧
    ((status.filter (fun e => lookupV e "type" == some (Val.s "cluster")) ≠ []) →
     (∀ e ∈ status, isClusterEntry e = true → isStrOpt (lookupV e "name") = true) →
     (∀ e ∈ status.filter (fun e => lookupV e "type" == some (Val.s "cluster")),
        keysOf e = keysOf
          (status.filter (fun e => lookupV e "type" == some (Val.s "cluster"))).headI) →
     ClusterInfoCollector.collect status =
       .ok ([{ name := "pve_cluster_info", help := "Cluster info",
               labels := keysOf (stripClusterSpec
                 (status.filter (fun e => lookupV e "type" == some (Val.s "cluster"))).headI),
               samples := ((status.filter
                   (fun e => lookupV e "type" == some (Val.s "cluster"))).map
                     stripClusterSpec).map
                 (nodeRow (keysOf (stripClusterSpec (status.filter
                   (fun e => lookupV e "type" == some (Val.s "cluster"))).headI))) }],
             status.map (fun e => if isClusterEntry e then stripClusterSpec e else e))) :=
  ⟨fun hne honl hhomog => nodeCollect_spec status htype hne honl hhomog,
   fun hne hname hhomog => clusterCollect_spec status htype hne hname hhomog⟩

/-- Witness input for claim C6: two key-homogeneous node entries and a
cluster entry. -/
def wStat6 : List Record :=
  [[("id", Val.s "node/p1"), ("ip", Val.s "10.0.0.1"), ("local", Val.i 1),
    ("name", Val.s "p1"), ("nodeid", Val.i 0), ("online", Val.i 1), ("type", Val.s "node")],
   [("type", Val.s "cluster"), ("name", Val.s "pvec"), ("quorate", Val.i 1),
    ("nodes", Val.i 2), ("version", Val.i 2)],
   [("id", Val.s "node/p2"), ("ip", Val.s "10.0.0.2"), ("local", Val.i 0),
    ("name", Val.s "p2"), ("nodeid", Val.i 1), ("online", Val.i 1), ("type", Val.s "node")]]

/-- Witness for claim C6 at a concrete input. -/
theorem claim_C6_witness :
    ClusterNodeCollector.collect wStat6 =
      .ok ([{ name := "pve_node_info", help := "Node info",
              labels := ["id", "ip", "local", "name", "nodeid"],
              samples := [([Val.s "node/p1", Val.s "10.0.0.1", Val.s "1",
                            Val.s "p1", Val.s "0"], Val.i 1),
                          ([Val.s "node/p2", Val.s "10.0.0.2", Val.s "0",
                            Val.s "p2", Val.s "1"], Val.i 1)] }],
           [[("id", Val.s "node/p1"), ("ip", Val.s "10.0.0.1"), ("local", Val.i 1),
             ("name", Val.s "p1"), ("nodeid", Val.i 0)],
            [("type", Val.s "cluster"), ("name", Val.s "pvec"), ("quorate", Val.i 1),
             ("nodes", Val.i 2), ("version", Val.i 2)],
            [("id", Val.s "node/p2"), ("ip", Val.s "10.0.0.2"), ("local", Val.i 0),
             ("name", Val.s "p2"), ("nodeid", Val.i 1)]]) ∧
    ClusterInfoCollector.collect wStat6 =
      .ok ([{ name := "pve_cluster_info", help := "Cluster info",
              labels := ["quorate", "nodes", "version", "id"],
              samples := [([Val.s "1", Val.s "2", Val.s "2", Val.s "cluster/pvec"],
                           Val.i 1)] }],
           [[("id", Val.s "node/p1"), ("ip", Val.s "10.0.0.1"), ("local", Val.i 1),
             ("name", Val.s "p1"), ("nodeid", Val.i 0), ("online", Val.i 1),
             ("type", Val.s "node")],
            [("quorate", Val.i 1), ("nodes", Val.i 2), ("version", Val.i 2),
             ("id", Val.s "cluster/pvec")],
            [("id", Val.s "node/p2"), ("ip", Val.s "10.0.0.2"), ("local", Val.i 0),
             ("name", Val.s "p2"), ("nodeid", Val.i 1), ("online", Val.i 1),
             ("type", Val.s "node")]]) :=
  ⟨((claim_C6 wStat6 (by decide)).1 (by decide) (by decide) (by decide)).trans (by decide),
   ((claim_C6 wStat6 (by decide)).2 (by decide) (by decide) (by decide)).trans (by decide)⟩

/-! ### Claim C10: destructive mutation of the upstream entries -/

theorem pyDel_ok_inv (r : Record) (k : String) (x : Record)
    (h : pyDel r k = .ok x) : x = eraseKey r k := by
  simp only [pyDel] at h
  by_cases hs : (lookupV r k).isSome = true
  · rw [if_pos hs] at h
    injection h with h
    exact h.symm
  · rw [if_neg hs] at h
    cases h

theorem stripNodeE_ok_inv (e : Record) (x : Record)
    (h : stripNodeE e = .ok x) : x = stripNodeSpec e := by
  simp only [stripNodeE] at h
  cases h1 : pyDel e "type" with
  | error msg => rw [h1, exc_bind_error] at h; cases h
  | ok n =>
    rw [h1, exc_bind_ok] at h
    rw [pyDel_ok_inv e "type" n h1] at h
    rw [pyDel_ok_inv _ "online" x h]
    rfl

theorem fmtS_ok_inv (v : Val) (s : String) (h : fmtS v = .ok s) : v = Val.s s := by
  cases v with
  | s v' => simp only [fmtS] at h; injection h with h; rw [h]
  | i v' => simp only [fmtS] at h; cases h
  | b v' => simp only [fmtS] at h; cases h

theorem stripClusterE_ok_inv (e : Record) (x : Record)
    (h : stripClusterE e = .ok x) : x = stripClusterSpec e := by
  simp only [stripClusterE] at h
  cases h1 : pyDel e "type" with
  | error msg => rw [h1, exc_bind_error] at h; cases h
  | ok c =>
    rw [h1, exc_bind_ok] at h
    cases h2 : pyGet c "name" with
    | error msg => rw [h2, exc_bind_error] at h; cases h
    | ok nv =>
      rw [h2, exc_bind_ok] at h
      cases h3 : fmtS nv with
      | error msg => rw [h3, exc_bind_error] at h; cases h
      | ok nm =>
        rw [h3, exc_bind_ok] at h
        have hc := pyDel_ok_inv e "type" c h1
        subst hc
        have hnv := fmtS_ok_inv nv nm h3
        subst hnv
        have hlook : lookupV e "name" = some (Val.s nm) := by
          have : lookupV (eraseKey e "type") "name" = some (Val.s nm) := by
            simp only [pyGet] at h2
            cases hl : lookupV (eraseKey e "type") "name" with
            | none => rw [hl] at h2; cases h2
            | some v => rw [hl] at h2; injection h2 with h2; rw [h2]
          rw [← lookupV_eraseKey_of_ne e "type" "name" (by decide)]
          exact this
        rw [pyDel_ok_inv _ "name" x h]
        simp [stripClusterSpec, hlook, pyStr]

theorem forall₂_eq_map (g : α → β) :
    ∀ (l : List α) (l' : List β), List.Forall₂ (fun a b => b = g a) l l' → l' = l.map g := by
  intro l
  induction l with
  | nil =>
    intro l' h
    cases h
    rfl
  | cons a as ih =>
    intro l' h
    cases h with
    | cons hab htail => rw [List.map_cons, hab, ih _ htail]

theorem mutateNodes_post_inv (status post : List Record)
    (h : mutateByType "node" stripNodeE status = .ok post) :
    post = status.map (fun e => if isNodeEntry e then stripNodeSpec e else e) := by
  apply forall₂_eq_map
  have hf := mapE_ok_forall₂ _ _ _ h
  apply List.Forall₂.imp _ hf
  intro e p hep
  cases ht : pyGet e "type" with
  | error msg => rw [ht, exc_bind_error] at hep; cases hep
  | ok t =>
    rw [ht, exc_bind_ok] at hep
    have hlt : lookupV e "type" = some t := by
      simp only [pyGet] at ht
      cases hl : lookupV e "type" with
      | none => rw [hl] at ht; cases ht
      | some v => rw [hl] at ht; injection ht with ht; rw [ht]
    by_cases htn : t = Val.s "node"
    · rw [if_pos htn] at hep
      have : isNodeEntry e = true := by simp [isNodeEntry, hlt, htn]
      rw [if_pos this]
      exact stripNodeE_ok_inv e p hep
    · rw [if_neg htn, exc_pure] at hep
      injection hep with hep
      have : ¬ isNodeEntry e = true := by
        simp only [isNodeEntry, beq_iff_eq, hlt]
        intro hcon
        exact htn (Option.some_inj.mp hcon)
      rw [if_neg this]
      exact hep.symm

theorem mutateClusters_post_inv (status post : List Record)
    (h : mutateByType "cluster" stripClusterE status = .ok post) :
    post = status.map (fun e => if isClusterEntry e then stripClusterSpec e else e) := by
  apply forall₂_eq_map
  have hf := mapE_ok_forall₂ _ _ _ h
  apply List.Forall₂.imp _ hf
  intro e p hep
  cases ht : pyGet e "type" with
  | error msg => rw [ht, exc_bind_error] at hep; cases hep
  | ok t =>
    rw [ht, exc_bind_ok] at hep
    have hlt : lookupV e "type" = some t := by
      simp only [pyGet] at ht
      cases hl : lookupV e "type" with
      | none => rw [hl] at ht; cases ht
      | some v => rw [hl] at ht; injection ht with ht; rw [ht]
    by_cases htn : t = Val.s "cluster"
    · rw [if_pos htn] at hep
      have : isClusterEntry e = true := by simp [isClusterEntry, hlt, htn]
      rw [if_pos this]
      exact stripClusterE_ok_inv e p hep
    · rw [if_neg htn, exc_pure] at hep
      injection hep with hep
      have : ¬ isClusterEntry e = true := by
        simp only [isClusterEntry, beq_iff_eq, hlt]
        intro hcon
        exact htn (Option.some_inj.mp hcon)
      rw [if_neg this]
      exact hep.symm

theorem selectType_ok_inv (t : String) :
    ∀ (status l : List Record), selectType t status = .ok l →
      l = status.filter (fun e => lookupV e "type" == some (Val.s t)) := by
  intro status
  induction status with
  | nil =>
    intro l h
    simp only [selectType] at h
    injection h with h
    rw [← h]
    rfl
  | cons e rest ih =>
    intro l h
    simp only [selectType] at h
    cases ht : pyGet e "type" with
    | error msg => rw [ht, exc_bind_error] at h; cases h
    | ok ty =>
      rw [ht, exc_bind_ok] at h
      cases htail : selectType t rest with
      | error msg => rw [htail, exc_bind_error] at h; cases h
      | ok tail =>
        rw [htail, exc_bind_ok, exc_pure] at h
        injection h with h
        have hlt : lookupV e "type" = some ty := by
          simp only [pyGet] at ht
          cases hl : lookupV e "type" with
          | none => rw [hl] at ht; cases ht
          | some v => rw [hl] at ht; injection ht with ht; rw [ht]
        rw [List.filter_cons, ← ih tail htail, ← h]
        by_cases hty : ty = Val.s t
        · rw [if_pos hty, if_pos (by simp [hlt, hty])]
        · rw [if_neg hty, if_neg (by simp [hlt, hty])]

theorem nodeCollect_post_inv (status : List Record) (fams : List MetricFamily)
    (post : List Record) (h : ClusterNodeCollector.collect status = .ok (fams, post))
    (hne : ∃ e ∈ status, isNodeEntry e = true) :
    post = status.map (fun e => if isNodeEntry e then stripNodeSpec e else e) := by
  simp only [ClusterNodeCollector.collect] at h
  cases hsel : selectType "node" status with
  | error msg => rw [hsel, exc_bind_error] at h; cases h
  | ok nodes =>
    rw [hsel, exc_bind_ok] at h
    obtain ⟨e, he, hn⟩ := hne
    have hmem : e ∈ nodes := by
      rw [selectType_ok_inv "node" status nodes hsel]
      exact List.mem_filter.mpr ⟨he, by simpa [isNodeEntry] using hn⟩
    have hnonempty : ¬ nodes.isEmpty = true := by
      cases nodes with
      | nil => cases hmem
      | cons x xs => simp [List.isEmpty]
    rw [if_neg hnonempty] at h
    cases h1 : mapE stripNodeE nodes with
    | error msg => rw [h1, exc_bind_error] at h; cases h
    | ok stripped =>
      rw [h1, exc_bind_ok] at h
      cases h2 : mutateByType "node" stripNodeE status with
      | error msg => rw [h2, exc_bind_error] at h; cases h
      | ok post' =>
        rw [h2, exc_bind_ok] at h
        cases h3 : mapE (fun node =>
            (mapE (fun key => (pyGet node key).map (fun v => Val.s (pyStr v)))
              (keysOf stripped.headI)).map (fun vs => (vs, Val.i 1))) stripped with
        | error msg => rw [h3, exc_bind_error] at h; cases h
        | ok samples =>
          rw [h3, exc_bind_ok, exc_pure] at h
          injection h with h
          have hpp : post' = post := congrArg Prod.snd h
          rw [← hpp]
          exact mutateNodes_post_inv status post' h2

theorem clusterCollect_post_inv (status : List Record) (fams : List MetricFamily)
    (post : List Record) (h : ClusterInfoCollector.collect status = .ok (fams, post))
    (hne : ∃ e ∈ status, isClusterEntry e = true) :
    post = status.map (fun e => if isClusterEntry e then stripClusterSpec e else e) := by
  simp only [ClusterInfoCollector.collect] at h
  cases hsel : selectType "cluster" status with
  | error msg => rw [hsel, exc_bind_error] at h; cases h
  | ok clusters =>
    rw [hsel, exc_bind_ok] at h
    obtain ⟨e, he, hn⟩ := hne
    have hmem : e ∈ clusters := by
      rw [selectType_ok_inv "cluster" status clusters hsel]
      exact List.mem_filter.mpr ⟨he, by simpa [isClusterEntry] using hn⟩
    have hnonempty : ¬ clusters.isEmpty = true := by
      cases clusters with
      | nil => cases hmem
      | cons x xs => simp [List.isEmpty]
    rw [if_neg hnonempty] at h
    cases h1 : mapE (fun c => pyDel c "type") clusters with
    | error msg => rw [h1, exc_bind_error] at h; cases h
    | ok pass1 =>
      rw [h1, exc_bind_ok] at h
      cases h2 : mapE (fun c => do
          let name ← pyGet c "name"
          let nameS ← fmtS name
          pyDel (pySet c "id" (Val.s ("cluster/" ++ nameS))) "name") pass1 with
      | error msg => rw [h2, exc_bind_error] at h; cases h
      | ok pass2 =>
        rw [h2, exc_bind_ok] at h
        cases h4 : mutateByType "cluster" stripClusterE status with
        | error msg => rw [h4, exc_bind_error] at h; cases h
        | ok post' =>
          rw [h4, exc_bind_ok] at h
          cases h3 : mapE (fun cluster =>
              (mapE (fun key => (pyGet cluster key).map (fun v => Val.s (pyStr v)))
                (keysOf pass2.headI)).map (fun vs => (vs, Val.i 1))) pass2 with
          | error msg => rw [h3, exc_bind_error] at h; cases h
          | ok samples =>
            rw [h3, exc_bind_ok, exc_pure] at h
            injection h with h
            have hpp : post' = post := congrArg Prod.snd h
            rw [← hpp]
            exact mutateClusters_post_inv status post' h4

theorem nodup_keys_eraseKey (r : Record) (k : String) (h : (keysOf r).Nodup) :
    (keysOf (eraseKey r k)).Nodup := by
  rw [keysOf_eraseKey]
  exact (List.eraseP_sublist (keysOf r)).nodup h

theorem nodup_keys_pySet (r : Record) (k : String) (v : Val) (h : (keysOf r).Nodup) :
    (keysOf (pySet r k v)).Nodup := by
  by_cases hm : k ∈ keysOf r
  · rw [keysOf_pySet_of_mem r k v hm]
    exact h
  · rw [keysOf_pySet_of_not_mem r k v hm]
    exact List.Nodup.append h (List.nodup_singleton k)
      (by simpa [List.disjoint_singleton] using hm)

theorem stripNode_lookups (e : Record) (h : (keysOf e).Nodup) :
    lookupV (stripNodeSpec e) "type" = none ∧
    lookupV (stripNodeSpec e) "online" = none := by
  constructor
  · unfold stripNodeSpec
    rw [lookupV_eraseKey_of_ne _ "online" "type" (by decide)]
    exact lookupV_eraseKey_self e "type" h
  · exact lookupV_eraseKey_self _ "online" (nodup_keys_eraseKey e "type" h)

theorem stripCluster_lookups (e : Record) (h : (keysOf e).Nodup) :
    lookupV (stripClusterSpec e) "type" = none ∧
    lookupV (stripClusterSpec e) "name" = none ∧
    lookupV (stripClusterSpec e) "id" =
      some (Val.s ("cluster/" ++ pyStr ((lookupV e "name").getD (Val.s "")))) := by
  refine ⟨?_, ?_, ?_⟩
  · unfold stripClusterSpec
    rw [lookupV_eraseKey_of_ne _ "name" "type" (by decide),
        lookupV_pySet_ne _ "id" "type" _ (by decide)]
    exact lookupV_eraseKey_self e "type" h
  · exact lookupV_eraseKey_self _ "name"
      (nodup_keys_pySet _ "id" _ (nodup_keys_eraseKey e "type" h))
  · unfold stripClusterSpec
    rw [lookupV_eraseKey_of_ne _ "name" "id" (by decide)]
    exact lookupV_pySet_self _ "id" _

theorem map_ne_self (g : α → α) (l : List α) (a : α) (ha : a ∈ l) (hg : g a ≠ a) :
    l.map g ≠ l := by
  induction l with
  | nil => cases ha
  | cons x xs ih =>
    intro h
    rw [List.map_cons] at h
    injection h with h1 h2
    rcases List.mem_cons.mp ha with he | hmem
    · exact hg (he ▸ h1)
    · exact ih hmem h2

/-- Claim C10: the node and cluster info collectors destructively
mutate the upstream status entries they receive: on success with a
non-empty filtered set, the post-state of the record list has, for each
filtered entry, the `type` key deleted (and `online` for nodes; `name`
for clusters, whose `id` is overwritten in place as `cluster/<name>`),
so the upstream records are not left unchanged and a second look at the
very same record objects would not find the deleted keys. -/
theorem claim_C10 (status : List Record) :
    (∀ (fams : List MetricFamily) (post : List Record),
      ClusterNodeCollector.collect status = .ok (fams, post) →
      (∃ e ∈ status, isNodeEntry e = true) →
      (∀ e ∈ status, (keysOf e).Nodup) →
      post = status.map (fun e => if isNodeEntry e then stripNodeSpec e else e) ∧
      (∀ e ∈ status, isNodeEntry e = true →
        lookupV (stripNodeSpec e) "type" = none ∧
        lookupV (stripNodeSpec e) "online" = none) ∧
      post ≠ status) ∧
    (∀ (fams : List MetricFamily) (post : List Record),
      ClusterInfoCollector.collect status = .ok (fams, post) →
      (∃ e ∈ status, isClusterEntry e = true) →
      (∀ e ∈ status, (keysOf e).Nodup) →
      post = status.map (fun e => if isClusterEntry e then stripClusterSpec e else e) ∧
      (∀ e ∈ status, isClusterEntry e = true →
        lookupV (stripClusterSpec e) "type" = none ∧
        lookupV (stripClusterSpec e) "name" = none ∧
        lookupV (stripClusterSpec e) "id" =
          some (Val.s ("cluster/" ++ pyStr ((lookupV e "name").getD (Val.s ""))))) ∧
      post ≠ status) := by
  constructor
  · intro fams post hsucc hne hnodup
    have hpost := nodeCollect_post_inv status fams post hsucc hne
    refine ⟨hpost, fun e he _ => stripNode_lookups e (hnodup e he), ?_⟩
    obtain ⟨e, he, hn⟩ := hne
    rw [hpost]
    apply map_ne_self _ status e he
    rw [if_pos hn]
    intro hcon
    have h1 := (stripNode_lookups e (hnodup e he)).1
    rw [hcon] at h1
    have h2 : lookupV e "type" = some (Val.s "node") := by
      simpa [isNodeEntry] using hn
    rw [h2] at h1
    cases h1
  · intro fams post hsucc hne hnodup
    have hpost := clusterCollect_post_inv status fams post hsucc hne
    refine ⟨hpost, fun e he _ => stripCluster_lookups e (hnodup e he), ?_⟩
    obtain ⟨e, he, hn⟩ := hne
    rw [hpost]
    apply map_ne_self _ status e he
    rw [if_pos hn]
    intro hcon
    have h1 := (stripCluster_lookups e (hnodup e he)).1
    rw [hcon] at h1
    have h2 : lookupV e "type" = some (Val.s "cluster") := by
      simpa [isClusterEntry] using hn
    rw [h2] at h1
    cases h1

/-- Witness for claim C10 at a concrete input. -/
theorem claim_C10_witness :
    (okD (ClusterNodeCollector.collect wStat6) ([], [])).2 ≠ wStat6 ∧
    (okD (ClusterInfoCollector.collect wStat6) ([], [])).2 ≠ wStat6 :=
  ⟨((claim_C10 wStat6).1 (okD (ClusterNodeCollector.collect wStat6) ([], [])).1
      (okD (ClusterNodeCollector.collect wStat6) ([], [])).2
      (by decide) (by decide) (by decide)).2.2,
   ((claim_C10 wStat6).2 (okD (ClusterInfoCollector.collect wStat6) ([], [])).1
      (okD (ClusterInfoCollector.collect wStat6) ([], [])).2
      (by decide) (by decide) (by decide)).2.2⟩

/-! ### Claim C7: hardware probe failure behavior -/

theorem foldE_id (f : β → α → Except String β) :
    ∀ (l : List α) (st : β), (∀ a ∈ l, ∀ s, f s a = .ok s) → foldE f st l = .ok st := by
  intro l
  induction l with
  | nil => intro st _; rfl
  | cons a as ih =>
    intro st h
    simp only [foldE, h a (List.mem_cons_self a as) st, exc_bind_ok]
    exact ih st (fun x hx => h x (List.mem_cons_of_mem a hx))

/-- Counterexample to claim C7 as stated: with absent `lscpu` output
(empty stdout, a total failure of that probe's data source) the CPU
frequency probe raises out of its collect instead of degrading. -/
theorem claim_C7_counterexample : isErr (CPUFreqCollector.collect "") = true := by decide

/-- Claim C7 (amended): the sensor-readings probe contains any failure
of its data source: its collect never raises, yields its family with
the samples enumerated before the failure, and an enumeration failure
leaves the rest of the scrape byte-identical; the CPU-frequency probe,
by contrast, has no handler: when its expected fields are absent from
the command output its collect raises (an unset-local fault), failing
the scrape; likewise the disk-temperature probe raises on a nonempty
output line without colon-delimited fields. -/
theorem claim_C7 (chips : List SensorChip) (b : Bool)
    (status vmRes resources : List Record) (version : Record) (lscpu hdd : String)
    (hno : ∀ l ∈ pySplitLines lscpu,
      pyStartsWith l "CPU MHz" = false ∧ pyStartsWith l "CPU max MHz" = false ∧
      pyStartsWith l "CPU min MHz" = false)
    (hbad : ∃ l ∈ pySplitLines hdd, l.length > 0 ∧ (pySplit l (Char.ofNat 58)).length = 1) :
    (LMSensorsCollector.collect chips b = LMSensorsCollector.collect chips false ∧
     isErr (LMSensorsCollector.collect chips b) = false) ∧
    collect_pve status vmRes resources version chips true lscpu hdd =
      collect_pve status vmRes resources version chips false lscpu hdd ∧
    isErr (CPUFreqCollector.collect lscpu) = true ∧
    isErr (HDDTempCollector.collect hdd) = true := by
  refine ⟨⟨rfl, rfl⟩, rfl, ?_, ?_⟩
  · have hfold : foldE CPUFreqCollector.step (none, none, none) (pySplitLines lscpu) =
        .ok (none, none, none) := by
      apply foldE_id
      intro l hl st
      obtain ⟨h1, h2, h3⟩ := hno l hl
      simp [CPUFreqCollector.step, h1, h2, h3, exc_pure]
    simp [CPUFreqCollector.collect, hfold, exc_bind_ok, isErr]
  · obtain ⟨l, hl, hlen, hsplit⟩ := hbad
    have hmem : l ∈ (pySplitLines hdd).filter (fun l => l.length > 0) :=
      List.mem_filter.mpr ⟨hl, by simpa using hlen⟩
    have hbadline : ∀ s, HDDTempCollector.parseLine l ≠ .ok s := by
      intro s
      have hp1 : (pySplit l (Char.ofNat 58))[1]? = none := by
        apply List.getElem?_eq_none
        rw [hsplit]
      simp only [HDDTempCollector.parseLine]
      cases hp0 : pyIndex (pySplit l (Char.ofNat 58)) 0 with
      | error msg => simp [hp0, exc_bind_error]
      | ok dev =>
        have hix : pyIndex (pySplit l (Char.ofNat 58)) 1 =
            .error "IndexError: list index out of range" := by
          simp [pyIndex, hp1]
        simp [hp0, exc_bind_ok, hix, exc_bind_error]
    have herr := mapE_err_of_mem HDDTempCollector.parseLine l
      ((pySplitLines hdd).filter (fun l => l.length > 0)) hmem hbadline
    cases hm : mapE HDDTempCollector.parseLine
        ((pySplitLines hdd).filter (fun l => l.length > 0)) with
    | error msg => simp [HDDTempCollector.collect, hm, exc_bind_error, isErr]
    | ok samples => rw [hm] at herr; simp [isErr] at herr

/-- Witness for claim C7 at a concrete input. -/
theorem claim_C7_witness :
    isErr (CPUFreqCollector.collect "abc") = true ∧
    isErr (HDDTempCollector.collect "garbage") = true :=
  ⟨(claim_C7 [] false [] [] [] [] "abc" "garbage" (by decide) (by decide)).2.2.1,
   (claim_C7 [] false [] [] [] [] "abc" "garbage" (by decide) (by decide)).2.2.2⟩

/-! ### Claim C9: sample/label well-formedness -/

/-- One sample is well-formed for a label list: its label-value tuple
has exactly one value per label name, every one a string rendering. -/
def sampleOK (labels : List String) (s : List Val × Val) : Prop :=
  s.1.length = labels.length ∧ ∀ v ∈ s.1, isStrV v = true

instance (labels : List String) (s : List Val × Val) : Decidable (sampleOK labels s) := by
  unfold sampleOK; infer_instance

/-- Every sample of the family is well-formed. -/
def famOK (fam : MetricFamily) : Prop := ∀ s ∈ fam.samples, sampleOK fam.labels s

instance (fam : MetricFamily) : Decidable (famOK fam) := by
  unfold famOK; infer_instance

theorem mapE_ok_mem (f : α → Except String β) :
    ∀ (l : List α) (ys : List β), mapE f l = .ok ys → ∀ y ∈ ys, ∃ a ∈ l, f a = .ok y := by
  intro l
  induction l with
  | nil =>
    intro ys h y hy
    simp only [mapE] at h
    cases h
    cases hy
  | cons a as ih =>
    intro ys h y hy
    simp only [mapE] at h
    cases ha : f a with
    | error e => rw [ha, exc_bind_error] at h; cases h
    | ok b =>
      rw [ha, exc_bind_ok] at h
      cases ht : mapE f as with
      | error e => rw [ht, exc_bind_error] at h; cases h
      | ok bs =>
        rw [ht, exc_bind_ok, exc_pure] at h
        cases h
        rcases List.mem_cons.mp hy with he | hm
        · exact ⟨a, List.mem_cons_self a as, he ▸ ha⟩
        · obtain ⟨x, hx, hfx⟩ := ih bs ht y hm
          exact ⟨x, List.mem_cons_of_mem a hx, hfx⟩

theorem exc_map_ok_inv (x : Except String α) (g : α → β) (b : β)
    (h : x.map g = .ok b) : ∃ a, x = .ok a ∧ b = g a := by
  cases x with
  | error e => simp [Except.map] at h
  | ok a =>
    simp only [Except.map] at h
    injection h with h
    exact ⟨a, rfl, h.symm⟩

theorem statusSample_sampleOK (e : Record) (s : List Val × Val)
    (hid : ∀ v, lookupV e "id" = some v → isStrV v = true)
    (h : StatusCollector.statusSample e = .ok s) : sampleOK ["id"] s := by
  simp only [StatusCollector.statusSample] at h
  cases hty : pyGet e "type" with
  | error msg => rw [hty, exc_bind_error] at h; cases h
  | ok t =>
    rw [hty, exc_bind_ok] at h
    by_cases h1 : t = Val.s "node"
    · rw [if_pos h1] at h
      cases hid' : pyGet e "id" with
      | error msg => rw [hid', exc_bind_error] at h; cases h
      | ok idv =>
        rw [hid', exc_bind_ok] at h
        cases honl : pyGet e "online" with
        | error msg => rw [honl, exc_bind_error] at h; cases h
        | ok onl =>
          rw [honl, exc_bind_ok, exc_pure] at h
          injection h with h
          have hstr : isStrV idv = true := by
            apply hid
            simp only [pyGet] at hid'
            cases hl : lookupV e "id" with
            | none => rw [hl] at hid'; cases hid'
            | some v => rw [hl] at hid'; injection hid' with hid'; rw [hid']
          rw [← h]
          exact ⟨rfl, by simp [hstr]⟩
    · rw [if_neg h1] at h
      by_cases h2 : t = Val.s "cluster"
      · rw [if_pos h2] at h
        cases hn : pyGet e "name" with
        | error msg => rw [hn, exc_bind_error] at h; cases h
        | ok nv =>
          rw [hn, exc_bind_ok] at h
          cases hf : fmtS nv with
          | error msg => rw [hf, exc_bind_error] at h; cases h
          | ok nm =>
            rw [hf, exc_bind_ok] at h
            cases hq : pyGet e "quorate" with
            | error msg => rw [hq, exc_bind_error] at h; cases h
            | ok q =>
              rw [hq, exc_bind_ok, exc_pure] at h
              injection h with h
              rw [← h]
              exact ⟨rfl, by simp [isStrV]⟩
      · rw [if_neg h2] at h
        cases h

theorem vmSample_sampleOK (r : Record) (s : List Val × Val)
    (hid : ∀ v, lookupV r "id" = some v → isStrV v = true)
    (h : StatusCollector.vmSample r = .ok s) : sampleOK ["id"] s := by
  simp only [StatusCollector.vmSample] at h
  cases hid' : pyGet r "id" with
  | error msg => rw [hid', exc_bind_error] at h; cases h
  | ok idv =>
    rw [hid', exc_bind_ok] at h
    cases hst : pyGet r "status" with
    | error msg => rw [hst, exc_bind_error] at h; cases h
    | ok stv =>
      rw [hst, exc_bind_ok, exc_pure] at h
      injection h with h
      have hstr : isStrV idv = true := by
        apply hid
        simp only [pyGet] at hid'
        cases hl : lookupV r "id" with
        | none => rw [hl] at hid'; cases hid'
        | some v => rw [hl] at hid'; injection hid' with hid'; rw [hid']
      rw [← h]
      exact ⟨rfl, by simp [hstr]⟩

theorem statusCollect_famOK (status resources : List Record) (fams : List MetricFamily)
    (hid1 : ∀ e ∈ status, ∀ v, lookupV e "id" = some v → isStrV v = true)
    (hid2 : ∀ r ∈ resources, ∀ v, lookupV r "id" = some v → isStrV v = true)
    (h : StatusCollector.collect status resources = .ok fams) :
    ∀ fam ∈ fams, famOK fam := by
  simp only [StatusCollector.collect] at h
  cases h1 : mapE StatusCollector.statusSample status with
  | error msg => rw [h1, exc_bind_error] at h; cases h
  | ok s1 =>
    rw [h1, exc_bind_ok] at h
    cases h2 : mapE StatusCollector.vmSample resources with
    | error msg => rw [h2, exc_bind_error] at h; cases h
    | ok s2 =>
      rw [h2, exc_bind_ok, exc_pure] at h
      cases h
      intro fam hfam
      rcases List.mem_cons.mp hfam with he | hm
      · subst he
        intro s hs
        rcases List.mem_append.mp hs with hs1 | hs2
        · obtain ⟨e, he, hfe⟩ := mapE_ok_mem _ status s1 h1 s hs1
          exact statusSample_sampleOK e s (hid1 e he) hfe
        · obtain ⟨r, hr, hfr⟩ := mapE_ok_mem _ resources s2 h2 s hs2
          exact vmSample_sampleOK r s (hid2 r hr) hfr
      · cases hm

theorem versionCollect_famOK (version : Record) (fams : List MetricFamily)
    (hver : ∀ kv ∈ version, isStrV kv.2 = true)
    (h : VersionCollector.collect version = .ok fams) :
    ∀ fam ∈ fams, famOK fam := by
  simp only [VersionCollector.collect] at h
  by_cases he : (version.filter
      (fun kv => VersionCollector.LABEL_WHITELIST.contains kv.1)).isEmpty = true
  · rw [if_pos he] at h; cases h
  · rw [if_neg he] at h
    injection h with h
    rw [← h]
    intro fam hfam
    rcases List.mem_cons.mp hfam with hfe | hm
    · subst hfe
      intro s hs
      rcases List.mem_cons.mp hs with hse | hsm
      · subst hse
        refine ⟨by simp, ?_⟩
        intro v hv
        obtain ⟨kv, hkv, hkve⟩ := List.mem_map.mp hv
        rw [← hkve]
        exact hver kv (List.mem_filter.mp hkv).1
      · cases hsm
    · cases hm

theorem row_sampleOK (labels : List String) (n : Record) (s : List Val × Val)
    (h : (mapE (fun key => (pyGet n key).map (fun v => Val.s (pyStr v))) labels).map
      (fun vs => (vs, Val.i 1)) = .ok s) : sampleOK labels s := by
  obtain ⟨vs, hvs, hse⟩ := exc_map_ok_inv _ _ _ h
  subst hse
  refine ⟨mapE_ok_length _ _ _ hvs, ?_⟩
  intro v hv
  obtain ⟨k, hk, hfk⟩ := mapE_ok_mem _ labels vs hvs v hv
  obtain ⟨w, hw, hvw⟩ := exc_map_ok_inv _ _ _ hfk
  rw [hvw]
  rfl

theorem nodeCollect_famOK (status : List Record) (fams : List MetricFamily)
    (post : List Record) (h : ClusterNodeCollector.collect status = .ok (fams, post)) :
    ∀ fam ∈ fams, famOK fam := by
  simp only [ClusterNodeCollector.collect] at h
  cases hsel : selectType "node" status with
  | error msg => rw [hsel, exc_bind_error] at h; cases h
  | ok nodes =>
    rw [hsel, exc_bind_ok] at h
    by_cases hne : nodes.isEmpty = true
    · rw [if_pos hne, exc_pure] at h
      injection h with h
      have : fams = [] := (congrArg Prod.fst h).symm
      rw [this]
      intro fam hfam
      cases hfam
    · rw [if_neg hne] at h
      cases h1 : mapE stripNodeE nodes with
      | error msg => rw [h1, exc_bind_error] at h; cases h
      | ok stripped =>
        rw [h1, exc_bind_ok] at h
        cases h2 : mutateByType "node" stripNodeE status with
        | error msg => rw [h2, exc_bind_error] at h; cases h
        | ok post' =>
          rw [h2, exc_bind_ok] at h
          cases h3 : mapE (fun node =>
              (mapE (fun key => (pyGet node key).map (fun v => Val.s (pyStr v)))
                (keysOf stripped.headI)).map (fun vs => (vs, Val.i 1))) stripped with
          | error msg => rw [h3, exc_bind_error] at h; cases h
          | ok samples =>
            rw [h3, exc_bind_ok, exc_pure] at h
            injection h with h
            rw [Prod.mk.injEq] at h
            rw [← h.1]
            intro fam hfam
            rcases List.mem_cons.mp hfam with hfe | hm
            · subst hfe
              intro s hs
              obtain ⟨node, hnode, hfn⟩ := mapE_ok_mem _ stripped samples h3 s hs
              exact row_sampleOK _ node s hfn
            · cases hm

theorem clusterCollect_famOK (status : List Record) (fams : List MetricFamily)
    (post : List Record) (h : ClusterInfoCollector.collect status = .ok (fams, post)) :
    ∀ fam ∈ fams, famOK fam := by
  simp only [ClusterInfoCollector.collect] at h
  cases hsel : selectType "cluster" status with
  | error msg => rw [hsel, exc_bind_error] at h; cases h
  | ok clusters =>
    rw [hsel, exc_bind_ok] at h
    by_cases hne : clusters.isEmpty = true
    · rw [if_pos hne, exc_pure] at h
      injection h with h
      have : fams = [] := (congrArg Prod.fst h).symm
      rw [this]
      intro fam hfam
      cases hfam
    · rw [if_neg hne] at h
      cases h1 : mapE (fun c => pyDel c "type") clusters with
      | error msg => rw [h1, exc_bind_error] at h; cases h
      | ok pass1 =>
        rw [h1, exc_bind_ok] at h
        cases h2 : mapE (fun c => do
            let name ← pyGet c "name"
            let nameS ← fmtS name
            pyDel (pySet c "id" (Val.s ("cluster/" ++ nameS))) "name") pass1 with
        | error msg => rw [h2, exc_bind_error] at h; cases h
        | ok pass2 =>
          rw [h2, exc_bind_ok] at h
          cases h4 : mutateByType "cluster" stripClusterE status with
          | error msg => rw [h4, exc_bind_error] at h; cases h
          | ok post' =>
            rw [h4, exc_bind_ok] at h
            cases h3 : mapE (fun cluster =>
                (mapE (fun key => (pyGet cluster key).map (fun v => Val.s (pyStr v)))
                  (keysOf pass2.headI)).map (fun vs => (vs, Val.i 1))) pass2 with
            | error msg => rw [h3, exc_bind_error] at h; cases h
            | ok samples =>
              rw [h3, exc_bind_ok, exc_pure] at h
              injection h with h
              rw [Prod.mk.injEq] at h
              rw [← h.1]
              intro fam hfam
              rcases List.mem_cons.mp hfam with hfe | hm
              · subst hfe
                intro s hs
                obtain ⟨c, hc, hfc⟩ := mapE_ok_mem _ pass2 samples h3 s hs
                exact row_sampleOK _ c s hfc
              · cases hm

/-- Well-formedness invariant of the resources collector's family
state: fixed usage keys and labels, every family's samples well-formed. -/
def CRWF (st : CRFamilies) : Prop :=
  (∀ p ∈ st.usage, p.1 ∈ ClusterResourcesCollector.usageKeyNames ∧
    p.2.labels = ["id"] ∧ famOK p.2) ∧
  (st.guest.labels = ["id", "node", "name", "type"] ∧ famOK st.guest) ∧
  (st.storage.labels = ["id", "node", "storage"] ∧ famOK st.storage)

instance (st : CRFamilies) : Decidable (CRWF st) := by
  unfold CRWF; infer_instance

theorem famOK_add (fam : MetricFamily) (s : List Val × Val)
    (h : famOK fam) (hs : sampleOK fam.labels s) :
    famOK { fam with samples := fam.samples ++ [s] } := by
  intro x hx
  rcases List.mem_append.mp hx with h1 | h2
  · exact h x h1
  · rcases List.mem_cons.mp h2 with he | hc
    · subst he; exact hs
    · cases hc

theorem step_CRWF (st st' : CRFamilies) (r : Record)
    (hstr : ∀ k ∈ ["id", "node", "name", "storage", "type"], ∀ v,
      lookupV r k = some v → isStrV v = true)
    (hwf : CRWF st) (h : ClusterResourcesCollector.step st r = .ok st') : CRWF st' := by
  simp only [ClusterResourcesCollector.step] at h
  cases hty : pyGet r "type" with
  | error msg => rw [hty, exc_bind_error] at h; cases h
  | ok t =>
    rw [hty, exc_bind_ok] at h
    cases hid : pyGet r "id" with
    | error msg => rw [hid, exc_bind_error] at h; cases h
    | ok idv =>
      rw [hid, exc_bind_ok, exc_pure] at h
      have hids : isStrV idv = true := by
        apply hstr "id" (by decide)
        simp only [pyGet] at hid
        cases hl : lookupV r "id" with
        | none => rw [hl] at hid; cases hid
        | some v => rw [hl] at hid; injection hid with hid; rw [hid]
      have hinfo : CRWF (match info_lookup t with
          | some (ls, target) =>
            st.addInfo target (ls.map (fun key => pyGetD r key (Val.s "")))
          | none => st) := by
        have hsample : ∀ ls : List String, (∀ k ∈ ls,
            k ∈ ["id", "node", "name", "storage", "type"]) →
            ∀ lbs : List String, ls.length = lbs.length →
            sampleOK lbs (ls.map (fun key => pyGetD r key (Val.s "")), Val.i 1) := by
          intro ls hls lbs hlen
          refine ⟨by simpa using hlen, ?_⟩
          intro v hv
          obtain ⟨k, hk, hkv⟩ := List.mem_map.mp hv
          rw [← hkv]
          unfold pyGetD
          cases hl : lookupV r k with
          | none => rfl
          | some w => exact hstr k (hls k hk) w hl
        cases hil : info_lookup t with
        | none => exact hwf
        | some p =>
          simp only [info_lookup] at hil
          by_cases hg : t = Val.s "lxc" ∨ t = Val.s "qemu"
          · rw [if_pos hg] at hil
            injection hil with hil
            rw [← hil]
            refine ⟨hwf.1, ⟨hwf.2.1.1, ?_⟩, hwf.2.2⟩
            simp only [CRFamilies.addInfo, MetricFamily.add_metric]
            apply famOK_add _ _ hwf.2.1.2
            rw [hwf.2.1.1]
            exact hsample _ (by decide) _ rfl
          · rw [if_neg hg] at hil
            by_cases hsto : t = Val.s "storage"
            · rw [if_pos hsto] at hil
              injection hil with hil
              rw [← hil]
              refine ⟨hwf.1, hwf.2.1, hwf.2.2.1, ?_⟩
              simp only [CRFamilies.addInfo, MetricFamily.add_metric]
              apply famOK_add _ _ hwf.2.2.2
              rw [hwf.2.2.1]
              exact hsample _ (by decide) _ rfl
            · rw [if_neg hsto] at hil
              cases hil
      injection h with h
      rw [← h]
      rw [itemsFold_spec idv r _ (fun p hp => (hinfo.1 p hp).1)]
      refine ⟨?_, hinfo.2.1, hinfo.2.2⟩
      intro p hp
      obtain ⟨q, hq, hqe⟩ := List.mem_map.mp hp
      subst hqe
      obtain ⟨hq1, hq2, hq3⟩ := hinfo.1 q hq
      refine ⟨hq1, by simpa [MetricFamily.addSamples] using hq2, ?_⟩
      intro s hs
      simp only [MetricFamily.addSamples] at hs
      rcases List.mem_append.mp hs with h1 | h2
      · have := hq3 s h1
        simpa [MetricFamily.addSamples, hq2] using this
      · obtain ⟨kv, hkv, hkve⟩ := List.mem_map.mp h2
        rw [← hkve]
        simp only [MetricFamily.addSamples]
        rw [hq2]
        exact ⟨rfl, by simp [hids]⟩

theorem foldE_CRWF :
    ∀ (resources : List Record) (st st' : CRFamilies),
      (∀ r ∈ resources, ∀ k ∈ ["id", "node", "name", "storage", "type"], ∀ v,
        lookupV r k = some v → isStrV v = true) →
      CRWF st → foldE ClusterResourcesCollector.step st resources = .ok st' →
      CRWF st' := by
  intro resources
  induction resources with
  | nil =>
    intro st st' _ hwf h
    simp only [foldE] at h
    injection h with h
    rw [← h]
    exact hwf
  | cons r rs ih =>
    intro st st' hstr hwf h
    simp only [foldE] at h
    cases hstep : ClusterResourcesCollector.step st r with
    | error msg => rw [hstep, exc_bind_error] at h; cases h
    | ok st1 =>
      rw [hstep, exc_bind_ok] at h
      exact ih st1 st' (fun x hx => hstr x (List.mem_cons_of_mem r hx))
        (step_CRWF st st1 r (hstr r (List.mem_cons_self r rs)) hwf hstep) h

theorem crCollect_famOK (resources : List Record) (fams : List MetricFamily)
    (hstr : ∀ r ∈ resources, ∀ k ∈ ["id", "node", "name", "storage", "type"], ∀ v,
      lookupV r k = some v → isStrV v = true)
    (h : ClusterResourcesCollector.collect resources = .ok fams) :
    ∀ fam ∈ fams, famOK fam := by
  simp only [ClusterResourcesCollector.collect] at h
  cases hf : foldE ClusterResourcesCollector.step ClusterResourcesCollector.initFamilies
      resources with
  | error msg => rw [hf, exc_bind_error] at h; cases h
  | ok st =>
    rw [hf, exc_bind_ok, exc_pure] at h
    injection h with h
    have hwf := foldE_CRWF resources ClusterResourcesCollector.initFamilies st hstr
      (by decide) hf
    rw [← h]
    intro fam hfam
    rcases List.mem_append.mp hfam with h1 | h2
    · obtain ⟨p, hp, hpe⟩ := List.mem_map.mp h1
      rw [← hpe]
      exact (hwf.1 p hp).2.2
    · rcases List.mem_cons.mp h2 with he | hm
      · subst he; exact hwf.2.1.2
      · rcases List.mem_cons.mp hm with he2 | hm2
        · subst he2; exact hwf.2.2.2
        · cases hm2

theorem sensorsCollect_famOK (chips : List SensorChip) (b : Bool)
    (fams : List MetricFamily) (h : LMSensorsCollector.collect chips b = .ok fams) :
    ∀ fam ∈ fams, famOK fam := by
  simp only [LMSensorsCollector.collect] at h
  injection h with h
  rw [← h]
  intro fam hfam
  rcases List.mem_cons.mp hfam with he | hm
  · subst he
    intro s hs
    obtain ⟨chip, hc, hcf⟩ := List.mem_flatMap.mp hs
    obtain ⟨f, hf, hfe⟩ := List.mem_map.mp hcf
    rw [← hfe]
    exact ⟨rfl, by simp [isStrV]⟩
  · cases hm

theorem cpufreqCollect_famOK (stdout : String) (fams : List MetricFamily)
    (h : CPUFreqCollector.collect stdout = .ok fams) : ∀ fam ∈ fams, famOK fam := by
  simp only [CPUFreqCollector.collect] at h
  cases hf : foldE CPUFreqCollector.step (none, none, none) (pySplitLines stdout) with
  | error msg => rw [hf, exc_bind_error] at h; cases h
  | ok st =>
    rw [hf, exc_bind_ok] at h
    obtain ⟨c, m, n⟩ := st
    cases c with
    | none => cases m <;> cases n <;> cases h
    | some cur =>
      cases m with
      | none => cases n <;> cases h
      | some mx =>
        cases n with
        | none => cases h
        | some mn =>
          simp only [exc_pure] at h
          injection h with h
          rw [← h]
          intro fam hfam
          rcases List.mem_cons.mp hfam with he | hm
          · subst he
            intro s hs
            rcases List.mem_cons.mp hs with hse | hsm
            · subst hse
              exact ⟨rfl, by simp [isStrV]⟩
            · cases hsm
          · cases hm

theorem hddCollect_famOK (stdout : String) (fams : List MetricFamily)
    (h : HDDTempCollector.collect stdout = .ok fams) : ∀ fam ∈ fams, famOK fam := by
  simp only [HDDTempCollector.collect] at h
  cases hm : mapE HDDTempCollector.parseLine
      ((pySplitLines stdout).filter (fun l => l.length > 0)) with
  | error msg => rw [hm, exc_bind_error] at h; cases h
  | ok samples =>
    rw [hm, exc_bind_ok, exc_pure] at h
    injection h with h
    rw [← h]
    intro fam hfam
    rcases List.mem_cons.mp hfam with he | hmem
    · subst he
      intro s hs
      obtain ⟨l, hl, hpl⟩ := mapE_ok_mem _ _ samples hm s hs
      simp only [HDDTempCollector.parseLine] at hpl
      cases hp0 : pyIndex (pySplit l (Char.ofNat 58)) 0 with
      | error msg => rw [hp0, exc_bind_error] at hpl; cases hpl
      | ok dev =>
        rw [hp0, exc_bind_ok] at hpl
        cases hp1 : pyIndex (pySplit l (Char.ofNat 58)) 1 with
        | error msg => rw [hp1, exc_bind_error] at hpl; cases hpl
        | ok mode =>
          rw [hp1, exc_bind_ok] at hpl
          cases hp2 : pyIndex (pySplit l (Char.ofNat 58)) 2 with
          | error msg => rw [hp2, exc_bind_error] at hpl; cases hpl
          | ok temp =>
            rw [hp2, exc_bind_ok] at hpl
            cases hd : firstDigitRun (pyStrip temp) with
            | none => rw [hd] at hpl; cases hpl
            | some digits =>
              rw [hd] at hpl
              simp only [exc_pure] at hpl
              injection hpl with hpl
              rw [← hpl]
              exact ⟨rfl, by simp [isStrV]⟩
    · cases hmem

/-- Claim C9: for every metric family emitted by any collector during
a whole scrape and every sample added to it, the length of the sample's
label-value tuple equals the number of label names declared for that
family, and every label value is a string (coerced with `str()` where
the source coerces; passed through where the upstream data model
supplies strings, which the string-typing hypotheses record). -/
theorem claim_C9 (status vmRes resources : List Record) (version : Record)
    (chips : List SensorChip) (b : Bool) (lscpu hdd : String) (fams : List MetricFamily)
    (hid1 : ∀ e ∈ status, ∀ v, lookupV e "id" = some v → isStrV v = true)
    (hid2 : ∀ r ∈ vmRes, ∀ v, lookupV r "id" = some v → isStrV v = true)
    (hid3 : ∀ r ∈ resources, ∀ k ∈ ["id", "node", "name", "storage", "type"], ∀ v,
      lookupV r k = some v → isStrV v = true)
    (hver : ∀ kv ∈ version, isStrV kv.2 = true)
    (hok : collect_pve status vmRes resources version chips b lscpu hdd = .ok fams) :
    ∀ fam ∈ fams, famOK fam := by
  simp only [collect_pve] at hok
  cases h1 : StatusCollector.collect status vmRes with
  | error msg => rw [h1, exc_bind_error] at hok; cases hok
  | ok f1 =>
    rw [h1, exc_bind_ok] at hok
    cases h2 : ClusterResourcesCollector.collect resources with
    | error msg => rw [h2, exc_bind_error] at hok; cases hok
    | ok f2 =>
      rw [h2, exc_bind_ok] at hok
      cases h3 : ClusterNodeCollector.collect status with
      | error msg => rw [h3, exc_bind_error] at hok; cases hok
      | ok p3 =>
        rw [h3, exc_bind_ok] at hok
        obtain ⟨f3, post3⟩ := p3
        cases h4 : ClusterInfoCollector.collect status with
        | error msg => rw [h4, exc_bind_error] at hok; cases hok
        | ok p4 =>
          rw [h4, exc_bind_ok] at hok
          obtain ⟨f4, post4⟩ := p4
          cases h5 : VersionCollector.collect version with
          | error msg => rw [h5, exc_bind_error] at hok; cases hok
          | ok f5 =>
            rw [h5, exc_bind_ok] at hok
            cases h6 : LMSensorsCollector.collect chips b with
            | error msg => rw [h6, exc_bind_error] at hok; cases hok
            | ok f6 =>
              rw [h6, exc_bind_ok] at hok
              cases h7 : CPUFreqCollector.collect lscpu with
              | error msg => rw [h7, exc_bind_error] at hok; cases hok
              | ok f7 =>
                rw [h7, exc_bind_ok] at hok
                cases h8 : HDDTempCollector.collect hdd with
                | error msg => rw [h8, exc_bind_error] at hok; cases hok
                | ok f8 =>
                  rw [h8, exc_bind_ok, exc_pure] at hok
                  injection hok with hok
                  rw [← hok]
                  intro fam hfam
                  simp only [List.mem_append] at hfam
                  rcases hfam with
                    (((((((hm | hm) | hm) | hm) | hm) | hm) | hm) | hm)
                  · exact statusCollect_famOK status vmRes f1 hid1 hid2 h1 fam hm
                  · exact crCollect_famOK resources f2 hid3 h2 fam hm
                  · exact nodeCollect_famOK status f3 post3 h3 fam hm
                  · exact clusterCollect_famOK status f4 post4 h4 fam hm
                  · exact versionCollect_famOK version f5 hver h5 fam hm
                  · exact sensorsCollect_famOK chips b f6 h6 fam hm
                  · exact cpufreqCollect_famOK lscpu f7 h7 fam hm
                  · exact hddCollect_famOK hdd f8 h8 fam hm

instance : Inhabited MetricFamily := ⟨⟨"", "", [], []⟩⟩

/-- Witness scrape input for claim C9. -/
def wScrapeStatus : List Record :=
  [[("type", Val.s "node"), ("id", Val.s "node/p1"), ("online", Val.i 1)]]

def wScrapeVm : List Record := [[("id", Val.s "qemu/102"), ("status", Val.s "running")]]

def wScrapeRes : List Record :=
  [[("id", Val.s "qemu/102"), ("type", Val.s "qemu"), ("node", Val.s "n1"),
    ("name", Val.s "vm1"), ("mem", Val.i 1024)]]

def wScrapeVersion : Record :=
  [("release", Val.s "15"), ("repoid", Val.s "abc"), ("version", Val.s "4.4")]

def wScrapeChips : List SensorChip :=
  [{ chip := "chip0", adapter_name := "isa", features := [("temp1", Val.i 42)] }]

def wScrapeLscpu : String := "CPU MHz: 1500.0\nCPU max MHz: 3000.0\nCPU min MHz: 800.0"

def wScrapeHdd : String := "/dev/sda: ST: 35 C"

/-- Witness for claim C9 at a concrete full-scrape input. -/
theorem claim_C9_witness :
    famOK (okD (collect_pve wScrapeStatus wScrapeVm wScrapeRes wScrapeVersion
      wScrapeChips false wScrapeLscpu wScrapeHdd) []).headI :=
  claim_C9 wScrapeStatus wScrapeVm wScrapeRes wScrapeVersion wScrapeChips false
    wScrapeLscpu wScrapeHdd
    (okD (collect_pve wScrapeStatus wScrapeVm wScrapeRes wScrapeVersion
      wScrapeChips false wScrapeLscpu wScrapeHdd) [])
    (by decide) (by decide) (by decide) (by decide) (by decide)
    (okD (collect_pve wScrapeStatus wScrapeVm wScrapeRes wScrapeVersion
      wScrapeChips false wScrapeLscpu wScrapeHdd) []).headI
    (by decide)
